import Mathlib

/-!
# Wildcard detection in IAM role policies (findStar.go)

A shallow embedding of `IsAsteriskFree`, `statementHasAsterisk`,
`resourceHasAsterisk` and `parseJSON` of `findStar.go`, together with the
operations of the JSON container library they call, and theorems about them.

A Go `panic` is modelled as `Except.error` carrying the panic message; a normal
return of a `bool` is `Except.ok`.
-/

namespace FindStar

/-! ## Data model -/

/-- A decoded JSON value, as held in the `interface{}` of a container.  A number
keeps its literal text; the program never inspects it. -/
inductive JSON where
  | null : JSON
  | bool (b : Bool) : JSON
  | num (lit : String) : JSON
  | str (s : String) : JSON
  | arr (elems : List JSON) : JSON
  | obj (fields : List (String × JSON)) : JSON

/-- A `*gabs.Container`: either the nil pointer (`none`) or a container
wrapping a value.  A container wrapping Go's `nil` wraps `JSON.null`. -/
abbrev Container := Option JSON

/-- Modelled from the spec: `Container.Data` of the gabs library, which is not
among the repository's sources.  It gives the wrapped value, and Go's `nil`
when the container itself is nil. -/
def Data (g : Container) : JSON :=
  match g with
  | none => JSON.null
  | some v => v

/-- Modelled from the spec: `Container.Children` of the gabs library.  For an
array it gives one container per element, in order; for an object its values
(Go iterates a map in no fixed order; the program calls `Children` on arrays
only); for anything else nothing. -/
def Children (g : Container) : List Container :=
  match Data g with
  | JSON.arr elems => elems.map some
  | JSON.obj fields => fields.map (fun kv => some kv.2)
  | _ => []

/-- The largest value of Go's `int` on a 64-bit platform. -/
def maxInt : Nat := 2 ^ 63 - 1

/-- Go's `strconv.Atoi` of the standard library, with which the container
library reads a path segment as an array index: an optional sign followed by
one or more decimal digits, within the range of `int`; `none` is the error
result.  None of the program's segments is such a numeral. -/
def strconvAtoi (s : String) : Option Int :=
  let body : Bool × List Char :=
    match s.data with
    | '+' :: r => (false, r)
    | '-' :: r => (true, r)
    | cs => (false, cs)
  if body.2.isEmpty || !body.2.all Char.isDigit then none
  else
    let n : Nat := body.2.foldl (fun a c => 10 * a + (c.toNat - 48)) 0
    if body.1 then (if n ≤ maxInt + 1 then some (-(n : Int)) else none)
    else (if n ≤ maxInt then some (n : Int) else none)

/-- Modelled from the spec: the path walk of `Container.JSONPointer` of the gabs
library, which is not among the repository's sources, on the segments of an
already split pointer (the pointer "/PolicyDocument/Statement" has the segments
"PolicyDocument" and "Statement").  Navigation is by object-key lookup at each
segment; a missing key or an intermediate value that is not navigable gives
`none`, the library's error result, which the program reads as "the path does
not exist".  The library also steps into an array when the segment is a decimal
index within bounds. -/
def searchPath (object : JSON) (hierarchy : List String) : Option JSON :=
  match hierarchy with
  | [] => some object
  | pathSeg :: rest =>
    match object with
    | JSON.obj fields =>
      match fields.lookup pathSeg with
      | none => none
      | some v => searchPath v rest
    | JSON.arr elems =>
      match strconvAtoi pathSeg with
      | none => none
      | some index =>
        if index < 0 then none
        else
          match elems.get? index.toNat with
          | none => none
          | some v => searchPath v rest
    | _ => none

/-- Modelled from the spec: `Container.JSONPointer` of the gabs library, taking
the pointer as its list of segments.  On success it returns a fresh container
around the value found. -/
def JSONPointer (g : Container) (hierarchy : List String) : Option Container :=
  match searchPath (Data g) hierarchy with
  | none => none
  | some v => some (some v)

/-- Whether `sub` starts at some position of `cs`. -/
def occursIn (sub : List Char) : List Char → Bool
  | [] => sub.isEmpty
  | c :: cs => sub.isPrefixOf (c :: cs) || occursIn sub cs

/-- Modelled from the spec: Go's `strings.Contains`, substring containment.
The only pattern the program uses is the one-character string "*". -/
def stringsContains (s substr : String) : Bool :=
  occursIn substr.data s.data

/-! ## The functions of findStar.go -/

/-- The function `resourceHasAsterisk`: the value must be a string, and the
result says whether it contains "*". -/
def resourceHasAsterisk (resource : Container) : Except String Bool :=
  match Data resource with
  | JSON.str str => Except.ok (stringsContains str "*")
  | _ => Except.error "Resource is not a string."

/-- The loop of `statementHasAsterisk` over the children of an array-valued
Resource: the first element with an asterisk ends the loop with `true`; when
the loop runs out the function falls through to `return false`. -/
def resourceLoop : List Container → Except String Bool
  | [] => Except.ok false
  | resource :: rest =>
    match resourceHasAsterisk resource with
    | Except.error e => Except.error e
    | Except.ok true => Except.ok true
    | Except.ok false => resourceLoop rest

/-- The function `statementHasAsterisk`. -/
def statementHasAsterisk (statement : Container) : Except String Bool :=
  match JSONPointer statement ["Resource"] with
  | none => Except.ok false
  | some gObj =>
    match Data gObj with
    | JSON.arr _ => resourceLoop (Children gObj)
    | JSON.str _ => resourceHasAsterisk gObj
    | _ => Except.error "Value of \"Resource\" is neither a string nor an array."

/-- The loop of `IsAsteriskFree` over the children of an array-valued
Statement: the first statement with an asterisk ends the loop with `false`;
when the loop runs out the function falls through to `return true`. -/
def statementLoop : List Container → Except String Bool
  | [] => Except.ok true
  | statement :: rest =>
    match statementHasAsterisk statement with
    | Except.error e => Except.error e
    | Except.ok true => Except.ok false
    | Except.ok false => statementLoop rest

/-- The body of `IsAsteriskFree` after the call of `parseJSON`. -/
def isAsteriskFreeParsed (jsonParsed : Container) : Except String Bool :=
  match JSONPointer jsonParsed ["PolicyDocument", "Statement"] with
  | none => Except.ok true
  | some gObj =>
    match Data gObj with
    | JSON.arr _ => statementLoop (Children gObj)
    | JSON.obj _ =>
      match statementHasAsterisk gObj with
      | Except.error e => Except.error e
      | Except.ok b => Except.ok (!b)
    | _ => Except.error "Value of \"Statement\" is neither a JSON object nor an array."

/-- The function `parseJSON`: the library's `gabs.ParseJSON` is a parameter;
its error becomes a panic, its value is wrapped in a container. -/
def parseJSON (ParseJSON : String → Except String JSON) (jsonString : String) :
    Except String Container :=
  match ParseJSON jsonString with
  | Except.error err => Except.error err
  | Except.ok v => Except.ok (some v)

/-- The function `IsAsteriskFree`. -/
def IsAsteriskFree (ParseJSON : String → Except String JSON) (jsonString : String) :
    Except String Bool :=
  match parseJSON ParseJSON jsonString with
  | Except.error err => Except.error err
  | Except.ok jsonParsed => isAsteriskFreeParsed jsonParsed

/-! ## Reading a document, on the specification side -/

/-- The value of the field `key` of a JSON value: present only on an object
that has the key. -/
def JSON.field (v : JSON) (key : String) : Option JSON :=
  match v with
  | JSON.obj fields => fields.lookup key
  | _ => none

/-- The value at `PolicyDocument.Statement` of a document, when present. -/
def statementValue (doc : JSON) : Option JSON :=
  match doc.field "PolicyDocument" with
  | none => none
  | some pd => pd.field "Statement"

/-- Whether a JSON value is a string. -/
def JSON.isStr : JSON → Bool
  | JSON.str _ => true
  | _ => false

/-- Whether a JSON value is an array. -/
def JSON.isArr : JSON → Bool
  | JSON.arr _ => true
  | _ => false

/-- Whether a JSON value is an object. -/
def JSON.isObj : JSON → Bool
  | JSON.obj _ => true
  | _ => false

/-- The string held by a JSON string. -/
def JSON.strOf : JSON → Option String
  | JSON.str s => some s
  | _ => none

/-- The character `*` occurs in the string. -/
def HasStar (s : String) : Prop := '*' ∈ s.data

instance (s : String) : Decidable (HasStar s) := by
  unfold HasStar; infer_instance

/-- A JSON value is a string containing `*`. -/
def JSON.IsStarString (v : JSON) : Prop :=
  match v with
  | JSON.str s => HasStar s
  | _ => False

/-- The statements of a document: the object at `PolicyDocument.Statement`
itself, or the elements of the array there. -/
def statements (doc : JSON) : List JSON :=
  match statementValue doc with
  | some (JSON.obj fields) => [JSON.obj fields]
  | some (JSON.arr elems) => elems
  | _ => []

/-- The Resource strings of a statement: the string at `Resource` itself, or
the string elements of the array there. -/
def resourceStrings (st : JSON) : List String :=
  match st.field "Resource" with
  | some (JSON.str s) => [s]
  | some (JSON.arr elems) => elems.filterMap JSON.strOf
  | _ => []

/-- The Resource of a statement is absent, a string, or an array of strings. -/
def resourceWellShaped (st : JSON) : Bool :=
  match st.field "Resource" with
  | none => true
  | some (JSON.str _) => true
  | some (JSON.arr elems) => elems.all JSON.isStr
  | some _ => false

/-- A well-shaped document: the value at `PolicyDocument.Statement` is absent,
an object, or an array of objects, and the Resource of each such statement is
absent, a string, or an array of strings. -/
def wellShaped (doc : JSON) : Bool :=
  match statementValue doc with
  | none => true
  | some (JSON.obj fields) => resourceWellShaped (JSON.obj fields)
  | some (JSON.arr elems) => elems.all (fun st => st.isObj && resourceWellShaped st)
  | some _ => false

/-- The call ended in a panic. -/
def Fails (r : Except String Bool) : Prop := ∃ e, r = Except.error e

/-- The call returned the boolean `b`. -/
def Returns (r : Except String Bool) (b : Bool) : Prop := r = Except.ok b

/-- A Resource value that `statementHasAsterisk` rejects on reaching it: it is
neither a string nor an array, or it is an array with a non-string element in
which no element before the first non-string element is a string containing
`*`. -/
def ResourceRejected (v : JSON) : Prop :=
  (v.isStr = false ∧ v.isArr = false) ∨
  ∃ pre x post, v = JSON.arr (pre ++ x :: post) ∧
    (∀ y ∈ pre, y.isStr = true ∧ ¬ y.IsStarString) ∧ x.isStr = false

/-- A Resource of an unaccepted shape: present, and neither a string nor an
array, or an array containing a non-string element. -/
def resourceUnaccepted (st : JSON) : Bool :=
  match st.field "Resource" with
  | none => false
  | some (JSON.str _) => false
  | some (JSON.arr elems) => elems.any (fun x => !x.isStr)
  | some _ => true

/-- Two documents agree on what the program reads: both have no value at
`PolicyDocument.Statement`; or both have an object there, with equal Resource
values or both without Resource; or both have an array there, of equal length,
whose corresponding elements have equal Resource values or both none; or both
have there a value that is neither an object nor an array. -/
def SameResources (d₁ d₂ : JSON) : Prop :=
  (statementValue d₁ = none ∧ statementValue d₂ = none) ∨
  (∃ f₁ f₂, statementValue d₁ = some (JSON.obj f₁) ∧
    statementValue d₂ = some (JSON.obj f₂) ∧
    f₁.lookup "Resource" = f₂.lookup "Resource") ∨
  (∃ e₁ e₂, statementValue d₁ = some (JSON.arr e₁) ∧
    statementValue d₂ = some (JSON.arr e₂) ∧
    List.Forall₂ (fun x y => x.field "Resource" = y.field "Resource") e₁ e₂) ∨
  (∃ v₁ v₂, statementValue d₁ = some v₁ ∧ statementValue d₂ = some v₂ ∧
    v₁.isObj = false ∧ v₁.isArr = false ∧ v₂.isObj = false ∧ v₂.isArr = false)

/-- A value at `PolicyDocument.Statement` on which `IsAsteriskFree` fails: it is
neither an object nor an array; or it is an object on which
`statementHasAsterisk` fails; or it is an array with an element on which
`statementHasAsterisk` fails while it returns `false` on every element before
that one. -/
def StatementFatal (v : JSON) : Prop :=
  (v.isObj = false ∧ v.isArr = false) ∨
  (v.isObj = true ∧ Fails (statementHasAsterisk (some v))) ∨
  ∃ pre x post, v = JSON.arr (pre ++ x :: post) ∧
    (∀ y ∈ pre, statementHasAsterisk (some y) = Except.ok false) ∧
    Fails (statementHasAsterisk (some x))

/-- Statement `t` is statement `s` up to the order of the elements of its
Resource array: the two have equal Resource values (or both none), or both have
an array at Resource and one array is a permutation of the other. -/
def ResourcePermuted (s t : JSON) : Prop :=
  s.field "Resource" = t.field "Resource" ∨
  ∃ r₁ r₂, s.field "Resource" = some (JSON.arr r₁) ∧
    t.field "Resource" = some (JSON.arr r₂) ∧ List.Perm r₁ r₂

/-- The array `e₂` of statements is the array `e₁` after a permutation of the
elements of some of its Resource arrays and a permutation of the statements. -/
def StatementsPermuted (e₁ e₂ : List JSON) : Prop :=
  ∃ e, List.Forall₂ ResourcePermuted e₁ e ∧ List.Perm e e₂

/-! ## Syntactic validity of a JSON text -/

/-- The states of the recogniser of JSON texts: where in a value the reading
stands. -/
inductive ScanState where
  | beginValue | beginValueOrEmpty | beginStringOrEmpty | beginString
  | endValue | endTop
  | inString | inStringEsc | inStringEscU | inStringEscU1 | inStringEscU12
  | inStringEscU123
  | neg | zero | digits | dot | dot0 | exp | expSign | exp0
  | litT | litTr | litTru | litF | litFa | litFal | litFals | litN | litNu | litNul
  deriving DecidableEq

/-- What encloses the value being read: an object whose key, or whose value,
is being read, or an array. -/
inductive ParseState where
  | objectKey | objectValue | arrayValue
  deriving DecidableEq

/-- JSON white space: space, tab, carriage return, line feed. -/
def isSpace (c : Char) : Bool :=
  c == ' ' || c == '\t' || c == '\r' || c == '\n'

/-- A hexadecimal digit, as after `\u` in a string. -/
def isHex (c : Char) : Bool :=
  c.isDigit || ('a' ≤ c && c ≤ 'f') || ('A' ≤ c && c ≤ 'F')

/-- The state after closing an object or an array, the enclosing states being
`rest`. -/
def afterClose (rest : List ParseState) : ScanState × List ParseState :=
  (if rest.isEmpty then ScanState.endTop else ScanState.endValue, rest)

/-- The step taken on character `c` once a value is complete; `none` is a
syntax error. -/
def stateEndValue (stack : List ParseState) (c : Char) :
    Option (ScanState × List ParseState) :=
  match stack with
  | [] => if isSpace c then some (ScanState.endTop, []) else none
  | ps :: rest =>
    if isSpace c then some (ScanState.endValue, ps :: rest)
    else
      match ps with
      | ParseState.objectKey =>
        if c == ':' then some (ScanState.beginValue, ParseState.objectValue :: rest)
        else none
      | ParseState.objectValue =>
        if c == ',' then some (ScanState.beginString, ParseState.objectKey :: rest)
        else if c == '}' then some (afterClose rest)
        else none
      | ParseState.arrayValue =>
        if c == ',' then some (ScanState.beginValue, ParseState.arrayValue :: rest)
        else if c == ']' then some (afterClose rest)
        else none

/-- The step taken on character `c` where a value must begin. -/
def stateBeginValue (stack : List ParseState) (c : Char) :
    Option (ScanState × List ParseState) :=
  if isSpace c then some (ScanState.beginValue, stack)
  else if c == '{' then some (ScanState.beginStringOrEmpty, ParseState.objectKey :: stack)
  else if c == '[' then some (ScanState.beginValueOrEmpty, ParseState.arrayValue :: stack)
  else if c == '"' then some (ScanState.inString, stack)
  else if c == '-' then some (ScanState.neg, stack)
  else if c == '0' then some (ScanState.zero, stack)
  else if c == 't' then some (ScanState.litT, stack)
  else if c == 'f' then some (ScanState.litF, stack)
  else if c == 'n' then some (ScanState.litN, stack)
  else if '1' ≤ c && c ≤ '9' then some (ScanState.digits, stack)
  else none

/-- The step taken on character `c` where an object key must begin. -/
def stateBeginString (stack : List ParseState) (c : Char) :
    Option (ScanState × List ParseState) :=
  if isSpace c then some (ScanState.beginString, stack)
  else if c == '"' then some (ScanState.inString, stack)
  else none

/-- The step taken on character `c` after the integer part of a number. -/
def stateZero (stack : List ParseState) (c : Char) :
    Option (ScanState × List ParseState) :=
  if c == '.' then some (ScanState.dot, stack)
  else if c == 'e' || c == 'E' then some (ScanState.exp, stack)
  else stateEndValue stack c

/-- If `c` is the character `want`, go to the state `next`; else a syntax
error.  It reads the letters of `true`, `false` and `null`. -/
def expectChar (want : Char) (next : ScanState) (stack : List ParseState) (c : Char) :
    Option (ScanState × List ParseState) :=
  if c == want then some (next, stack) else none

/-- One step of the recogniser: from state `st` inside the enclosing states
`stack`, on the character `c`; `none` is a syntax error. -/
def scanStep (st : ScanState) (stack : List ParseState) (c : Char) :
    Option (ScanState × List ParseState) :=
  match st with
  | ScanState.beginValue => stateBeginValue stack c
  | ScanState.beginValueOrEmpty =>
    if isSpace c then some (ScanState.beginValueOrEmpty, stack)
    else if c == ']' then stateEndValue stack c
    else stateBeginValue stack c
  | ScanState.beginStringOrEmpty =>
    if isSpace c then some (ScanState.beginStringOrEmpty, stack)
    else if c == '}' then
      match stack with
      | [] => none
      | _ :: rest => stateEndValue (ParseState.objectValue :: rest) c
    else stateBeginString stack c
  | ScanState.beginString => stateBeginString stack c
  | ScanState.endValue => stateEndValue stack c
  | ScanState.endTop => if isSpace c then some (ScanState.endTop, stack) else none
  | ScanState.inString =>
    if c == '"' then some (ScanState.endValue, stack)
    else if c == '\\' then some (ScanState.inStringEsc, stack)
    else if c.toNat < 32 then none
    else some (ScanState.inString, stack)
  | ScanState.inStringEsc =>
    if c == 'b' || c == 'f' || c == 'n' || c == 'r' || c == 't' || c == '\\' ||
        c == '/' || c == '"' then some (ScanState.inString, stack)
    else if c == 'u' then some (ScanState.inStringEscU, stack)
    else none
  | ScanState.inStringEscU =>
    if isHex c then some (ScanState.inStringEscU1, stack) else none
  | ScanState.inStringEscU1 =>
    if isHex c then some (ScanState.inStringEscU12, stack) else none
  | ScanState.inStringEscU12 =>
    if isHex c then some (ScanState.inStringEscU123, stack) else none
  | ScanState.inStringEscU123 =>
    if isHex c then some (ScanState.inString, stack) else none
  | ScanState.neg =>
    if c == '0' then some (ScanState.zero, stack)
    else if '1' ≤ c && c ≤ '9' then some (ScanState.digits, stack)
    else none
  | ScanState.zero => stateZero stack c
  | ScanState.digits =>
    if c.isDigit then some (ScanState.digits, stack) else stateZero stack c
  | ScanState.dot => if c.isDigit then some (ScanState.dot0, stack) else none
  | ScanState.dot0 =>
    if c.isDigit then some (ScanState.dot0, stack)
    else if c == 'e' || c == 'E' then some (ScanState.exp, stack)
    else stateEndValue stack c
  | ScanState.exp =>
    if c == '+' || c == '-' then some (ScanState.expSign, stack)
    else if c.isDigit then some (ScanState.exp0, stack)
    else none
  | ScanState.expSign => if c.isDigit then some (ScanState.exp0, stack) else none
  | ScanState.exp0 =>
    if c.isDigit then some (ScanState.exp0, stack) else stateEndValue stack c
  | ScanState.litT => expectChar 'r' ScanState.litTr stack c
  | ScanState.litTr => expectChar 'u' ScanState.litTru stack c
  | ScanState.litTru => expectChar 'e' ScanState.endValue stack c
  | ScanState.litF => expectChar 'a' ScanState.litFa stack c
  | ScanState.litFa => expectChar 'l' ScanState.litFal stack c
  | ScanState.litFal => expectChar 's' ScanState.litFals stack c
  | ScanState.litFals => expectChar 'e' ScanState.endValue stack c
  | ScanState.litN => expectChar 'u' ScanState.litNu stack c
  | ScanState.litNu => expectChar 'l' ScanState.litNul stack c
  | ScanState.litNul => expectChar 'l' ScanState.endValue stack c

/-- The recogniser run over the characters of a text. -/
def scanAll (st : ScanState) (stack : List ParseState) :
    List Char → Option (ScanState × List ParseState)
  | [] => some (st, stack)
  | c :: cs =>
    match scanStep st stack c with
    | none => none
    | some next => scanAll next.1 next.2 cs

/-- Modelled from the spec: syntactic validity of a JSON text, to which the
contract of the parser refers; the parser is the gabs library's and not among
the repository's sources.  A text is valid when it holds exactly one JSON value
(object, array, string, number, `true`, `false`, `null`) between optional white
space.  The end of the text is read as one more space, which lets a number end
there; the empty text is not valid. -/
def validJSON (text : String) : Bool :=
  match scanAll ScanState.beginValue [] text.data with
  | none => false
  | some (st, stack) =>
    if st = ScanState.endTop then true
    else
      match scanStep st stack ' ' with
      | some (ScanState.endTop, _) => true
      | _ => false

/-- Modelled from the spec: the failure contract of the JSON parser, which
fails when the text is empty or is not syntactically valid JSON. -/
def RejectsMalformed (ParseJSON : String → Except String JSON) : Prop :=
  ∀ text, text = "" ∨ validJSON text = false → ∃ err, ParseJSON text = Except.error err

/-- The text of the test "Parsing JSON with a missing value causes panic": the
value of Resource is missing. -/
def missingValueText : String :=
  "\x7b\n\t\"PolicyName\": \"root\",\n\t\"PolicyDocument\": \x7b\n\t\t\"Statement\": [\n\t\t\t\x7b\n\t\t\t\t\"Sid\": \"IamListAccess\",\n\t\t\t\t\"Resource\":\n\t\t\t\x7d\n\t\t]\n\t\x7d\n\x7d"

/-- The text of the test "Parsing JSON with empty values", which is valid. -/
def emptyValuesText : String :=
  "\x7b\n\t\"PolicyName\": \"root\",\n\t\"PolicyDocument\": \x7b\n\t\t\"Version\": \"2012-10-17\",\n\t\t\"Statement\": [\n\t\t\t\x7b\n\t\t\t\t\"Action\": [\n\t\t\t\t\t\"\",\n\t\t\t\t\t\"iam:ListUsers\"\n\t\t\t\t],\n\t\t\t\t\"Resource\": []\n\t\t\t\x7d,\n\t\t\t\x7b\x7d\n\t\t]\n\t\x7d\n\x7d"

/-- A parser that rejects the texts that are not valid JSON and reads every
valid text as the given document; it stands in for the library's parser. -/
def parsesValidTo (doc : JSON) : String → Except String JSON :=
  fun text => if validJSON text then Except.ok doc else Except.error "invalid JSON text"

/-! ## Example documents, after the repository's tests -/

/-- A statement in the style of the tests, with the given Resource value. -/
def statementWith (resource : JSON) : JSON :=
  JSON.obj [("Sid", JSON.str "IamListAccess"), ("Effect", JSON.str "Allow"),
    ("Action", JSON.arr [JSON.str "iam:ListRoles", JSON.str "iam:*"]),
    ("Resource", resource)]

/-- A statement in the style of the tests that has no Resource field. -/
def statementWithout : JSON :=
  JSON.obj [("Effect", JSON.str "Allow"), ("Action", JSON.str "s3:ListBucket")]

/-- A policy in the style of the tests, with the given Statement value. -/
def policyWith (statement : JSON) : JSON :=
  JSON.obj [("PolicyName", JSON.str "root"),
    ("PolicyDocument", JSON.obj [("Version", JSON.str "2012-10-17"),
      ("Statement", statement)])]

/-- A parser that reads every text as the given document; it stands in for a
text whose parse is that document. -/
def parsesTo (doc : JSON) : String → Except String JSON :=
  fun _ => Except.ok doc

/-! ## Lemmas on the library operations -/

theorem atoi_Resource : strconvAtoi "Resource" = none := by decide

theorem atoi_Statement : strconvAtoi "Statement" = none := by decide

theorem atoi_PolicyDocument : strconvAtoi "PolicyDocument" = none := by decide

theorem searchPath_Resource (v : JSON) :
    searchPath v ["Resource"] = v.field "Resource" := by
  cases v <;> simp [searchPath, JSON.field, atoi_Resource]
  case obj fields => cases fields.lookup "Resource" <;> rfl

theorem searchPath_Statement (v : JSON) :
    searchPath v ["Statement"] = v.field "Statement" := by
  cases v <;> simp [searchPath, JSON.field, atoi_Statement]
  case obj fields => cases fields.lookup "Statement" <;> rfl

theorem searchPath_PolicyDocument_Statement (doc : JSON) :
    searchPath doc ["PolicyDocument", "Statement"] = statementValue doc := by
  cases doc <;> simp [searchPath, statementValue, JSON.field, atoi_PolicyDocument]
  case obj fields =>
    cases h : fields.lookup "PolicyDocument" with
    | none => rfl
    | some pd =>
      have := searchPath_Statement pd
      simpa [searchPath] using this

theorem occursIn_star (cs : List Char) : occursIn ['*'] cs = true ↔ '*' ∈ cs := by
  induction cs with
  | nil => simp [occursIn]
  | cons c cs ih =>
    simp only [occursIn, Bool.or_eq_true, ih, List.mem_cons]
    constructor
    · rintro (h | h)
      · left
        simp [List.isPrefixOf] at h
        exact h
      · right; exact h
    · rintro (h | h)
      · left
        simpa [List.isPrefixOf] using h
      · right; exact h

theorem stringsContains_star (s : String) : stringsContains s "*" = true ↔ HasStar s := by
  unfold stringsContains HasStar
  exact occursIn_star s.data

theorem resourceHasAsterisk_str (s : String) :
    resourceHasAsterisk (some (JSON.str s)) = Except.ok (stringsContains s "*") := rfl

theorem resourceHasAsterisk_not_str (v : JSON) (h : v.isStr = false) :
    resourceHasAsterisk (some v) = Except.error "Resource is not a string." := by
  cases v <;> simp_all [resourceHasAsterisk, Data, JSON.isStr]

/-! ## Lemmas on the functions of findStar.go -/

theorem fails_or_returns (r : Except String Bool) : Fails r ∨ ∃ b, Returns r b := by
  cases r with
  | error e => exact Or.inl ⟨e, rfl⟩
  | ok b => exact Or.inr ⟨b, rfl⟩

theorem not_fails_ok (b : Bool) : ¬ Fails (Except.ok b) := by
  rintro ⟨e, h⟩; cases h

theorem resourceLoop_cons_str (s : String) (rest : List JSON) :
    resourceLoop ((JSON.str s :: rest).map some)
      = if stringsContains s "*" = true then Except.ok true
        else resourceLoop (rest.map some) := by
  simp only [List.map_cons, resourceLoop, resourceHasAsterisk_str]
  cases stringsContains s "*" <;> simp

theorem resourceLoop_cons_not_str (v : JSON) (rest : List JSON) (h : v.isStr = false) :
    resourceLoop ((v :: rest).map some) = Except.error "Resource is not a string." := by
  simp only [List.map_cons, resourceLoop, resourceHasAsterisk_not_str v h]

theorem statementHasAsterisk_absent (st : Container)
    (h : (Data st).field "Resource" = none) :
    statementHasAsterisk st = Except.ok false := by
  simp [statementHasAsterisk, JSONPointer, searchPath_Resource, h]

theorem statementHasAsterisk_str (st : Container) (s : String)
    (h : (Data st).field "Resource" = some (JSON.str s)) :
    statementHasAsterisk st = Except.ok (stringsContains s "*") := by
  simp only [statementHasAsterisk, JSONPointer, searchPath_Resource, h]
  simp [Data, resourceHasAsterisk]

theorem statementHasAsterisk_arr (st : Container) (elems : List JSON)
    (h : (Data st).field "Resource" = some (JSON.arr elems)) :
    statementHasAsterisk st = resourceLoop (elems.map some) := by
  simp only [statementHasAsterisk, JSONPointer, searchPath_Resource, h]
  simp [Data, Children]

theorem statementHasAsterisk_other (st : Container) (v : JSON)
    (h : (Data st).field "Resource" = some v)
    (hs : v.isStr = false) (ha : v.isArr = false) :
    statementHasAsterisk st
      = Except.error "Value of \"Resource\" is neither a string nor an array." := by
  cases v <;>
    simp_all [statementHasAsterisk, JSONPointer, searchPath_Resource, Data,
      JSON.isStr, JSON.isArr]

theorem isAsteriskFreeParsed_absent (doc : JSON) (h : statementValue doc = none) :
    isAsteriskFreeParsed (some doc) = Except.ok true := by
  simp [isAsteriskFreeParsed, JSONPointer, Data, searchPath_PolicyDocument_Statement, h]

theorem isAsteriskFreeParsed_obj (doc : JSON) (fields : List (String × JSON))
    (h : statementValue doc = some (JSON.obj fields)) :
    isAsteriskFreeParsed (some doc)
      = match statementHasAsterisk (some (JSON.obj fields)) with
        | Except.error e => Except.error e
        | Except.ok b => Except.ok (!b) := by
  simp [isAsteriskFreeParsed, JSONPointer, Data, searchPath_PolicyDocument_Statement, h]

theorem isAsteriskFreeParsed_arr (doc : JSON) (elems : List JSON)
    (h : statementValue doc = some (JSON.arr elems)) :
    isAsteriskFreeParsed (some doc) = statementLoop (elems.map some) := by
  simp [isAsteriskFreeParsed, JSONPointer, Data, searchPath_PolicyDocument_Statement, h,
    Children]

theorem isAsteriskFreeParsed_other (doc v : JSON) (h : statementValue doc = some v)
    (ho : v.isObj = false) (ha : v.isArr = false) :
    isAsteriskFreeParsed (some doc)
      = Except.error "Value of \"Statement\" is neither a JSON object nor an array." := by
  cases v <;>
    simp_all [isAsteriskFreeParsed, JSONPointer, Data,
      searchPath_PolicyDocument_Statement, JSON.isObj, JSON.isArr]

theorem IsAsteriskFree_parsed (ParseJSON : String → Except String JSON) (text : String)
    (doc : JSON) (hp : ParseJSON text = Except.ok doc) :
    IsAsteriskFree ParseJSON text = isAsteriskFreeParsed (some doc) := by
  simp [IsAsteriskFree, parseJSON, hp]

theorem exists_starString_iff (elems : List JSON) :
    (∃ x ∈ elems, x.IsStarString) ↔ ∃ s ∈ elems.filterMap JSON.strOf, HasStar s := by
  constructor
  · rintro ⟨x, hx, hs⟩
    cases x <;> simp [JSON.IsStarString] at hs
    case str s => exact ⟨s, List.mem_filterMap.2 ⟨JSON.str s, hx, rfl⟩, hs⟩
  · rintro ⟨s, hs, hstar⟩
    obtain ⟨x, hx, hxs⟩ := List.mem_filterMap.1 hs
    cases x <;> simp [JSON.strOf] at hxs
    case str t => subst hxs; exact ⟨JSON.str t, hx, hstar⟩

theorem resourceLoop_strings (elems : List JSON) (h : ∀ x ∈ elems, x.isStr = true) :
    ∃ b, resourceLoop (elems.map some) = Except.ok b ∧
      (b = true ↔ ∃ x ∈ elems, x.IsStarString) := by
  induction elems with
  | nil => exact ⟨false, rfl, by simp⟩
  | cons x rest ih =>
    have hx := h x (List.mem_cons_self _ _)
    obtain ⟨b, hb, hiff⟩ := ih (fun y hy => h y (List.mem_cons_of_mem _ hy))
    cases x <;> simp [JSON.isStr] at hx
    case str s =>
      rw [resourceLoop_cons_str]
      by_cases hs : stringsContains s "*" = true
      · refine ⟨true, by simp [hs], ?_⟩
        simp only [true_iff]
        exact ⟨JSON.str s, List.mem_cons_self _ _, (stringsContains_star s).1 hs⟩
      · refine ⟨b, by simp [hs, hb], ?_⟩
        rw [hiff]
        constructor
        · rintro ⟨y, hy, hys⟩
          exact ⟨y, List.mem_cons_of_mem _ hy, hys⟩
        · rintro ⟨y, hy, hys⟩
          rcases List.mem_cons.1 hy with rfl | hy
          · exact absurd ((stringsContains_star s).2 hys) hs
          · exact ⟨y, hy, hys⟩

theorem statementHasAsterisk_wellShaped (st : JSON) (h : resourceWellShaped st = true) :
    ∃ b, statementHasAsterisk (some st) = Except.ok b ∧
      (b = true ↔ ∃ s ∈ resourceStrings st, HasStar s) := by
  unfold resourceWellShaped at h
  cases hr : st.field "Resource" with
  | none =>
    refine ⟨false, statementHasAsterisk_absent (some st) hr, ?_⟩
    simp [resourceStrings, hr]
  | some v =>
    rw [hr] at h
    cases v <;> simp at h
    case str s =>
      refine ⟨stringsContains s "*", statementHasAsterisk_str (some st) s hr, ?_⟩
      simp [resourceStrings, hr, stringsContains_star]
    case arr elems =>
      obtain ⟨b, hb, hiff⟩ := resourceLoop_strings elems h
      refine ⟨b, ?_, ?_⟩
      · rw [statementHasAsterisk_arr (some st) elems hr, hb]
      · rw [hiff, exists_starString_iff]
        simp [resourceStrings, hr]

theorem statementLoop_ok (elems : List JSON) (P : JSON → Prop)
    (h : ∀ x ∈ elems, ∃ b, statementHasAsterisk (some x) = Except.ok b ∧ (b = true ↔ P x)) :
    ∃ b, statementLoop (elems.map some) = Except.ok b ∧ (b = false ↔ ∃ x ∈ elems, P x) := by
  induction elems with
  | nil => exact ⟨true, rfl, by simp⟩
  | cons x rest ih =>
    obtain ⟨bx, hbx, hPx⟩ := h x (List.mem_cons_self _ _)
    obtain ⟨b, hb, hiff⟩ := ih (fun y hy => h y (List.mem_cons_of_mem _ hy))
    cases bx with
    | true =>
      refine ⟨false, by simp [statementLoop, hbx], ?_⟩
      simp only [true_iff]
      exact ⟨x, List.mem_cons_self _ _, hPx.1 rfl⟩
    | false =>
      refine ⟨b, by simp [statementLoop, hbx, hb], ?_⟩
      rw [hiff]
      constructor
      · rintro ⟨y, hy, hys⟩
        exact ⟨y, List.mem_cons_of_mem _ hy, hys⟩
      · rintro ⟨y, hy, hys⟩
        rcases List.mem_cons.1 hy with rfl | hy
        · exact absurd (hPx.2 hys) (by simp)
        · exact ⟨y, hy, hys⟩

/-! ## The claims -/

/-- C1: on a well-shaped parsed document (the value at PolicyDocument.Statement
is absent, an object, or an array of objects, and the Resource of each such
statement is absent, a string, or an array of strings), `IsAsteriskFree` returns
a boolean, and that boolean is `false` exactly when some statement has a
Resource string containing the character `*`. -/
theorem isAsteriskFree_wellShaped (ParseJSON : String → Except String JSON)
    (text : String) (doc : JSON) (hp : ParseJSON text = Except.ok doc)
    (hw : wellShaped doc = true) :
    ∃ b, IsAsteriskFree ParseJSON text = Except.ok b ∧
      (b = false ↔ ∃ st ∈ statements doc, ∃ s ∈ resourceStrings st, HasStar s) := by
  rw [IsAsteriskFree_parsed ParseJSON text doc hp]
  unfold wellShaped at hw
  cases hv : statementValue doc with
  | none =>
    refine ⟨true, isAsteriskFreeParsed_absent doc hv, ?_⟩
    simp [statements, hv]
  | some v =>
    rw [hv] at hw
    cases v <;> simp at hw
    case obj fields =>
      obtain ⟨b, hb, hiff⟩ := statementHasAsterisk_wellShaped (JSON.obj fields) hw
      refine ⟨!b, ?_, ?_⟩
      · rw [isAsteriskFreeParsed_obj doc fields hv, hb]
      · simp only [statements, hv, List.mem_singleton, exists_eq_left, ← hiff]
        cases b <;> simp
    case arr elems =>
      rw [isAsteriskFreeParsed_arr doc elems hv]
      have := statementLoop_ok elems (fun st => ∃ s ∈ resourceStrings st, HasStar s)
        (fun x hx => statementHasAsterisk_wellShaped x (hw x hx).2)
      simpa [statements, hv] using this

/-- Witness of C1: the test "PolicyDocument general example has an asterisk". -/
theorem isAsteriskFree_wellShaped_witness :
    wellShaped (policyWith (JSON.arr
        [statementWith (JSON.arr [JSON.str "arn:aws:s3:::confidential-data"]),
         statementWith (JSON.arr [JSON.str "arn:aws:s3::*:confidential-data",
           JSON.str "arn:aws:s3:::confidential-data"])])) = true ∧
    ∃ b, IsAsteriskFree
        (parsesTo (policyWith (JSON.arr
          [statementWith (JSON.arr [JSON.str "arn:aws:s3:::confidential-data"]),
           statementWith (JSON.arr [JSON.str "arn:aws:s3::*:confidential-data",
             JSON.str "arn:aws:s3:::confidential-data"])]))) "text" = Except.ok b ∧
      (b = false ↔ ∃ st ∈ statements (policyWith (JSON.arr
          [statementWith (JSON.arr [JSON.str "arn:aws:s3:::confidential-data"]),
           statementWith (JSON.arr [JSON.str "arn:aws:s3::*:confidential-data",
             JSON.str "arn:aws:s3:::confidential-data"])])),
        ∃ s ∈ resourceStrings st, HasStar s) :=
  ⟨by decide, isAsteriskFree_wellShaped _ "text" _ rfl (by decide)⟩

/-- C2: applied to a JSON string `s`, `resourceHasAsterisk` returns a boolean
that is `true` exactly when the character `*` stands at some position of `s`;
for the empty string it returns `false`. -/
theorem resourceHasAsterisk_iff_star (s : String) :
    (∃ b, resourceHasAsterisk (some (JSON.str s)) = Except.ok b ∧
      (b = true ↔ ∃ i, s.data.get? i = some '*')) ∧
    resourceHasAsterisk (some (JSON.str "")) = Except.ok false := by
  refine ⟨⟨stringsContains s "*", resourceHasAsterisk_str s, ?_⟩, rfl⟩
  rw [stringsContains_star]
  exact List.mem_iff_get?

theorem statementLoop_all_false (elems : List JSON)
    (h : ∀ x ∈ elems, statementHasAsterisk (some x) = Except.ok false) :
    statementLoop (elems.map some) = Except.ok true := by
  induction elems with
  | nil => rfl
  | cons x rest ih =>
    simp only [List.map_cons, statementLoop, h x (List.mem_cons_self _ _)]
    exact ih (fun y hy => h y (List.mem_cons_of_mem _ hy))

/-- C3: absence is safe.  On a parsed JSON object that lacks the key
PolicyDocument, or whose PolicyDocument object lacks the key Statement, or whose
Statement is an object lacking Resource or an array of objects all lacking
Resource, `IsAsteriskFree` returns `true`; and `statementHasAsterisk` returns
`false` on every statement object that lacks Resource. -/
theorem absence_is_safe (ParseJSON : String → Except String JSON) (text : String)
    (fields : List (String × JSON))
    (hp : ParseJSON text = Except.ok (JSON.obj fields))
    (habs : fields.lookup "PolicyDocument" = none ∨
      ∃ pd, fields.lookup "PolicyDocument" = some (JSON.obj pd) ∧
        (pd.lookup "Statement" = none ∨
         (∃ sf, pd.lookup "Statement" = some (JSON.obj sf) ∧
            sf.lookup "Resource" = none) ∨
         (∃ elems, pd.lookup "Statement" = some (JSON.arr elems) ∧
            ∀ x ∈ elems, ∃ sf, x = JSON.obj sf ∧ sf.lookup "Resource" = none))) :
    IsAsteriskFree ParseJSON text = Except.ok true ∧
    ∀ sf : List (String × JSON), sf.lookup "Resource" = none →
      statementHasAsterisk (some (JSON.obj sf)) = Except.ok false := by
  have hobj : ∀ sf : List (String × JSON), sf.lookup "Resource" = none →
      statementHasAsterisk (some (JSON.obj sf)) = Except.ok false :=
    fun sf h => statementHasAsterisk_absent (some (JSON.obj sf)) h
  refine ⟨?_, hobj⟩
  rw [IsAsteriskFree_parsed ParseJSON text _ hp]
  rcases habs with h | ⟨pd, hpd, h | ⟨sf, hst, hr⟩ | ⟨elems, hst, hall⟩⟩
  · exact isAsteriskFreeParsed_absent _ (by simp [statementValue, JSON.field, h])
  · exact isAsteriskFreeParsed_absent _ (by simp [statementValue, JSON.field, hpd, h])
  · rw [isAsteriskFreeParsed_obj _ sf (by simp [statementValue, JSON.field, hpd, hst]),
      hobj sf hr]
    rfl
  · rw [isAsteriskFreeParsed_arr _ elems (by simp [statementValue, JSON.field, hpd, hst])]
    apply statementLoop_all_false
    intro x hx
    obtain ⟨sf, rfl, hr⟩ := hall x hx
    exact hobj sf hr

/-- Witness of C3: a Statement array of two statements without Resource. -/
theorem absence_is_safe_witness :
    (parsesTo (policyWith (JSON.arr [statementWithout, JSON.obj []]))) "text"
      = Except.ok (JSON.obj [("PolicyName", JSON.str "root"),
          ("PolicyDocument", JSON.obj [("Version", JSON.str "2012-10-17"),
            ("Statement", JSON.arr [statementWithout, JSON.obj []])])]) ∧
    (IsAsteriskFree (parsesTo (policyWith (JSON.arr [statementWithout, JSON.obj []])))
        "text" = Except.ok true ∧
      ∀ sf : List (String × JSON), sf.lookup "Resource" = none →
        statementHasAsterisk (some (JSON.obj sf)) = Except.ok false) :=
  ⟨rfl, absence_is_safe _ "text" _ rfl
    (Or.inr ⟨_, rfl, Or.inr (Or.inr ⟨_, rfl, by
      intro x hx
      simp only [List.mem_cons, List.mem_singleton, List.not_mem_nil, or_false] at hx
      rcases hx with rfl | rfl
      · exact ⟨_, rfl, rfl⟩
      · exact ⟨_, rfl, rfl⟩⟩)⟩)⟩

theorem statementLoop_singleton (x : JSON) :
    statementLoop ([x].map some)
      = match statementHasAsterisk (some x) with
        | Except.error e => Except.error e
        | Except.ok b => Except.ok (!b) := by
  simp only [List.map_cons, List.map_nil, statementLoop]
  cases statementHasAsterisk (some x) with
  | error e => rfl
  | ok b => cases b <;> rfl

/-- C4: shape symmetry for Statement.  For every JSON object `S`, a parsed
document whose PolicyDocument.Statement is `S` and a parsed document whose
PolicyDocument.Statement is the one-element array `[S]` make `IsAsteriskFree`
behave identically (the same panic, or the same boolean), whatever surrounds
the Statement field; in particular for one and the same surrounding document. -/
theorem statement_shape_symmetry (ParseJSON : String → Except String JSON)
    (text₁ text₂ : String) (doc₁ doc₂ : JSON) (S : List (String × JSON))
    (hp₁ : ParseJSON text₁ = Except.ok doc₁) (hp₂ : ParseJSON text₂ = Except.ok doc₂)
    (h₁ : statementValue doc₁ = some (JSON.obj S))
    (h₂ : statementValue doc₂ = some (JSON.arr [JSON.obj S])) :
    IsAsteriskFree ParseJSON text₁ = IsAsteriskFree ParseJSON text₂ := by
  rw [IsAsteriskFree_parsed ParseJSON text₁ doc₁ hp₁,
    IsAsteriskFree_parsed ParseJSON text₂ doc₂ hp₂,
    isAsteriskFreeParsed_obj doc₁ S h₁, isAsteriskFreeParsed_arr doc₂ _ h₂,
    statementLoop_singleton]

/-- Witness of C4: one surrounding policy, with the statement and with the
one-element array of it, read from two texts. -/
theorem statement_shape_symmetry_witness :
    statementValue (policyWith (statementWith (JSON.str "arn:aws:s3:::example_bucket/*")))
      = some (JSON.obj [("Sid", JSON.str "IamListAccess"), ("Effect", JSON.str "Allow"),
          ("Action", JSON.arr [JSON.str "iam:ListRoles", JSON.str "iam:*"]),
          ("Resource", JSON.str "arn:aws:s3:::example_bucket/*")]) ∧
    IsAsteriskFree
        (fun t => if t = "object" then
            Except.ok (policyWith (statementWith (JSON.str "arn:aws:s3:::example_bucket/*")))
          else Except.ok (policyWith
            (JSON.arr [statementWith (JSON.str "arn:aws:s3:::example_bucket/*")])))
        "object"
      = IsAsteriskFree
        (fun t => if t = "object" then
            Except.ok (policyWith (statementWith (JSON.str "arn:aws:s3:::example_bucket/*")))
          else Except.ok (policyWith
            (JSON.arr [statementWith (JSON.str "arn:aws:s3:::example_bucket/*")])))
        "array" :=
  ⟨rfl, statement_shape_symmetry _ "object" "array" _ _ _ rfl rfl rfl rfl⟩

/-- C5: shape symmetry for Resource.  For every string `R`, a statement object
whose Resource is `R` and a statement object whose Resource is the one-element
array `[R]` make `statementHasAsterisk` return the same boolean, and neither
call fails; whatever the other fields of the statement are. -/
theorem resource_shape_symmetry (sf₁ sf₂ : List (String × JSON)) (R : String)
    (h₁ : sf₁.lookup "Resource" = some (JSON.str R))
    (h₂ : sf₂.lookup "Resource" = some (JSON.arr [JSON.str R])) :
    ∃ b, statementHasAsterisk (some (JSON.obj sf₁)) = Except.ok b ∧
      statementHasAsterisk (some (JSON.obj sf₂)) = Except.ok b := by
  refine ⟨stringsContains R "*", statementHasAsterisk_str (some (JSON.obj sf₁)) R h₁, ?_⟩
  rw [statementHasAsterisk_arr (some (JSON.obj sf₂)) [JSON.str R] h₂, resourceLoop_cons_str]
  cases stringsContains R "*" <;> rfl

/-- Witness of C5: the same statement with the Resource "arn:aws:s3:::b/*" and
with the one-element array of it. -/
theorem resource_shape_symmetry_witness :
    ∃ b, statementHasAsterisk (some (JSON.obj [("Effect", JSON.str "Allow"),
          ("Resource", JSON.str "arn:aws:s3:::b/*")])) = Except.ok b ∧
      statementHasAsterisk (some (JSON.obj [("Effect", JSON.str "Allow"),
          ("Resource", JSON.arr [JSON.str "arn:aws:s3:::b/*"])])) = Except.ok b :=
  resource_shape_symmetry _ _ "arn:aws:s3:::b/*" rfl rfl

/-- C6: on a parsed document whose value at PolicyDocument.Statement is present
and is a string, a number, a boolean or null, `IsAsteriskFree` panics with the
message that Statement is neither a JSON object nor an array, and returns no
boolean. -/
theorem statement_scalar_fails (ParseJSON : String → Except String JSON)
    (text : String) (doc v : JSON) (hp : ParseJSON text = Except.ok doc)
    (hv : statementValue doc = some v)
    (hs : v = JSON.null ∨ (∃ b, v = JSON.bool b) ∨ (∃ n, v = JSON.num n) ∨
      (∃ s, v = JSON.str s)) :
    IsAsteriskFree ParseJSON text
        = Except.error "Value of \"Statement\" is neither a JSON object nor an array." ∧
      ∀ b, IsAsteriskFree ParseJSON text ≠ Except.ok b := by
  have h : IsAsteriskFree ParseJSON text
      = Except.error "Value of \"Statement\" is neither a JSON object nor an array." := by
    rw [IsAsteriskFree_parsed ParseJSON text doc hp]
    rcases hs with rfl | ⟨b, rfl⟩ | ⟨n, rfl⟩ | ⟨s, rfl⟩ <;>
      exact isAsteriskFreeParsed_other doc _ hv rfl rfl
  refine ⟨h, fun b hb => ?_⟩
  rw [h] at hb
  cases hb

/-- Witness of C6: the test document whose Statement is the number 4. -/
theorem statement_scalar_fails_witness :
    statementValue (JSON.obj [("PolicyName", JSON.str "root"),
        ("PolicyDocument", JSON.obj [("Statement", JSON.num "4")])])
      = some (JSON.num "4") ∧
    (IsAsteriskFree (parsesTo (JSON.obj [("PolicyName", JSON.str "root"),
        ("PolicyDocument", JSON.obj [("Statement", JSON.num "4")])])) "text"
        = Except.error "Value of \"Statement\" is neither a JSON object nor an array." ∧
      ∀ b, IsAsteriskFree (parsesTo (JSON.obj [("PolicyName", JSON.str "root"),
        ("PolicyDocument", JSON.obj [("Statement", JSON.num "4")])])) "text"
        ≠ Except.ok b) :=
  ⟨rfl, statement_scalar_fails _ "text" _ _ rfl rfl (Or.inr (Or.inr (Or.inl ⟨"4", rfl⟩)))⟩

/-- C7: on a statement object whose Resource field is present and is a number,
a boolean, null or an object, `statementHasAsterisk` panics with the message
that Resource is neither a string nor an array, and returns no boolean. -/
theorem resource_wrong_type_fails (sf : List (String × JSON)) (v : JSON)
    (hv : sf.lookup "Resource" = some v)
    (hs : v = JSON.null ∨ (∃ b, v = JSON.bool b) ∨ (∃ n, v = JSON.num n) ∨
      (∃ fields, v = JSON.obj fields)) :
    statementHasAsterisk (some (JSON.obj sf))
        = Except.error "Value of \"Resource\" is neither a string nor an array." ∧
      ∀ b, statementHasAsterisk (some (JSON.obj sf)) ≠ Except.ok b := by
  have h : statementHasAsterisk (some (JSON.obj sf))
      = Except.error "Value of \"Resource\" is neither a string nor an array." := by
    rcases hs with rfl | ⟨b, rfl⟩ | ⟨n, rfl⟩ | ⟨fields, rfl⟩ <;>
      exact statementHasAsterisk_other (some (JSON.obj sf)) _ hv rfl rfl
  refine ⟨h, fun b hb => ?_⟩
  rw [h] at hb
  cases hb

/-- Witness of C7: the test statement whose Resource is the number 4. -/
theorem resource_wrong_type_fails_witness :
    statementHasAsterisk (some (JSON.obj [("Resource", JSON.num "4")]))
        = Except.error "Value of \"Resource\" is neither a string nor an array." ∧
      ∀ b, statementHasAsterisk (some (JSON.obj [("Resource", JSON.num "4")]))
        ≠ Except.ok b :=
  resource_wrong_type_fails _ _ rfl (Or.inr (Or.inr (Or.inl ⟨"4", rfl⟩)))

theorem resourceLoop_append_clean (pre rest : List JSON)
    (h : ∀ y ∈ pre, y.isStr = true ∧ ¬ y.IsStarString) :
    resourceLoop ((pre ++ rest).map some) = resourceLoop (rest.map some) := by
  induction pre with
  | nil => rfl
  | cons y pre ih =>
    obtain ⟨hy, hns⟩ := h y (List.mem_cons_self _ _)
    cases y <;> simp [JSON.isStr] at hy
    case str s =>
      have hc : ¬ stringsContains s "*" = true :=
        fun hc => hns ((stringsContains_star s).1 hc)
      rw [List.cons_append, resourceLoop_cons_str, if_neg hc]
      exact ih (fun z hz => h z (List.mem_cons_of_mem _ hz))

theorem resourceLoop_fails_iff (elems : List JSON) :
    Fails (resourceLoop (elems.map some)) ↔
      ∃ pre x post, elems = pre ++ x :: post ∧
        (∀ y ∈ pre, y.isStr = true ∧ ¬ y.IsStarString) ∧ x.isStr = false := by
  constructor
  · intro hf
    induction elems with
    | nil => exact absurd hf (not_fails_ok false)
    | cons a rest ih =>
      cases ha : a.isStr with
      | false => exact ⟨[], a, rest, rfl, by simp, ha⟩
      | true =>
        cases a <;> simp [JSON.isStr] at ha
        case str s =>
          rw [resourceLoop_cons_str] at hf
          by_cases hc : stringsContains s "*" = true
          · rw [if_pos hc] at hf
            exact absurd hf (not_fails_ok true)
          · rw [if_neg hc] at hf
            obtain ⟨pre, x, post, he, hpre, hx⟩ := ih hf
            refine ⟨JSON.str s :: pre, x, post, by rw [he]; rfl, ?_, hx⟩
            intro y hy
            rcases List.mem_cons.1 hy with rfl | hy
            · exact ⟨rfl, fun hs => hc ((stringsContains_star s).2 hs)⟩
            · exact hpre y hy
  · rintro ⟨pre, x, post, rfl, hpre, hx⟩
    rw [resourceLoop_append_clean pre (x :: post) hpre, resourceLoop_cons_not_str x post hx]
    exact ⟨_, rfl⟩

theorem statementHasAsterisk_fails_of_rejected (st : Container) (v : JSON)
    (hv : (Data st).field "Resource" = some v) (hr : ResourceRejected v) :
    Fails (statementHasAsterisk st) := by
  rcases hr with ⟨hs, ha⟩ | ⟨pre, x, post, rfl, hpre, hx⟩
  · rw [statementHasAsterisk_other st v hv hs ha]
    exact ⟨_, rfl⟩
  · rw [statementHasAsterisk_arr st _ hv]
    exact (resourceLoop_fails_iff _).2 ⟨pre, x, post, rfl, hpre, hx⟩

theorem statementHasAsterisk_rejected_of_fails (st : Container)
    (hf : Fails (statementHasAsterisk st)) :
    ∃ v, (Data st).field "Resource" = some v ∧ ResourceRejected v := by
  cases hv : (Data st).field "Resource" with
  | none =>
    rw [statementHasAsterisk_absent st hv] at hf
    exact absurd hf (not_fails_ok false)
  | some v =>
    refine ⟨v, rfl, ?_⟩
    cases v with
    | str s =>
      rw [statementHasAsterisk_str st s hv] at hf
      exact absurd hf (not_fails_ok _)
    | arr elems =>
      rw [statementHasAsterisk_arr st elems hv] at hf
      obtain ⟨pre, x, post, he, hpre, hx⟩ := (resourceLoop_fails_iff elems).1 hf
      exact Or.inr ⟨pre, x, post, by rw [he], hpre, hx⟩
    | null => exact Or.inl ⟨rfl, rfl⟩
    | bool b => exact Or.inl ⟨rfl, rfl⟩
    | num n => exact Or.inl ⟨rfl, rfl⟩
    | obj fields => exact Or.inl ⟨rfl, rfl⟩

/-- C8: `statementHasAsterisk` panics exactly when the Resource field of the
statement is present and either is neither a string nor an array, or is an
array with a non-string element in which no element before the first non-string
element is a string containing `*`; in every other case it returns a boolean.
On the statement with Resource ["ok", 4] it panics at the element 4, with the
message that the resource is not a string. -/
theorem statementHasAsterisk_fails_iff (st : Container) :
    (Fails (statementHasAsterisk st) ↔
      ∃ v, (Data st).field "Resource" = some v ∧ ResourceRejected v) ∧
    ((∃ v, (Data st).field "Resource" = some v ∧ ResourceRejected v) ∨
      ∃ b, statementHasAsterisk st = Except.ok b) ∧
    statementHasAsterisk
        (some (JSON.obj [("Resource", JSON.arr [JSON.str "ok", JSON.num "4"])]))
      = Except.error "Resource is not a string." := by
  refine ⟨⟨statementHasAsterisk_rejected_of_fails st, ?_⟩, ?_, rfl⟩
  · rintro ⟨v, hv, hr⟩
    exact statementHasAsterisk_fails_of_rejected st v hv hr
  · rcases fails_or_returns (statementHasAsterisk st) with hf | ⟨b, hb⟩
    · exact Or.inl (statementHasAsterisk_rejected_of_fails st hf)
    · exact Or.inr ⟨b, hb⟩

theorem statementLoop_fails (pre : List JSON) (x : JSON) (post : List JSON)
    (hpre : ∀ y ∈ pre, statementHasAsterisk (some y) ≠ Except.ok true)
    (hx : Fails (statementHasAsterisk (some x))) :
    Fails (statementLoop ((pre ++ x :: post).map some)) := by
  induction pre with
  | nil =>
    obtain ⟨e, he⟩ := hx
    exact ⟨e, by simp [statementLoop, he]⟩
  | cons y pre ih =>
    have hy := hpre y (List.mem_cons_self _ _)
    have ih2 := ih (fun z hz => hpre z (List.mem_cons_of_mem _ hz))
    simp only [List.cons_append, List.map_cons, statementLoop]
    cases hr : statementHasAsterisk (some y) with
    | error e => exact ⟨e, rfl⟩
    | ok b =>
      cases b with
      | true => exact absurd hr hy
      | false => simpa using ih2

theorem isAsteriskFreeParsed_fails_of_reached (doc : JSON) (pre : List JSON) (x : JSON)
    (post : List JSON) (hst : statements doc = pre ++ x :: post)
    (hpre : ∀ y ∈ pre, statementHasAsterisk (some y) ≠ Except.ok true)
    (hx : Fails (statementHasAsterisk (some x))) :
    Fails (isAsteriskFreeParsed (some doc)) := by
  unfold statements at hst
  cases hv : statementValue doc with
  | none => rw [hv] at hst; cases pre <;> simp at hst
  | some v =>
    rw [hv] at hst
    cases v with
    | obj fields =>
      have hone : [JSON.obj fields] = pre ++ x :: post := hst
      cases pre with
      | nil =>
        simp only [List.nil_append, List.cons.injEq] at hone
        obtain ⟨e, he⟩ := hx
        rw [isAsteriskFreeParsed_obj doc fields hv, hone.1, he]
        exact ⟨e, rfl⟩
      | cons y pre => simp at hone
    | arr elems =>
      have hel : elems = pre ++ x :: post := hst
      rw [isAsteriskFreeParsed_arr doc elems hv, hel]
      exact statementLoop_fails pre x post hpre hx
    | null => cases pre <;> simp at hst
    | bool b => cases pre <;> simp at hst
    | num n => cases pre <;> simp at hst
    | str t => cases pre <;> simp at hst

/-- C9, as stated, fails: a Statement array whose first statement has the
Resource "*" and whose second statement has the Resource 4 holds a statement of
an unaccepted shape, and so does a statement whose Resource is ["*", 4]; on
both documents `IsAsteriskFree` returns `false` instead of failing. -/
theorem invalid_statement_not_always_fatal :
    ¬ (∀ (ParseJSON : String → Except String JSON) (text : String) (doc : JSON),
        ParseJSON text = Except.ok doc →
        (∃ st ∈ statements doc, resourceUnaccepted st = true) →
        Fails (IsAsteriskFree ParseJSON text)) ∧
    IsAsteriskFree (parsesTo (policyWith
        (JSON.arr [statementWith (JSON.str "*"), statementWith (JSON.num "4")]))) "text"
      = Except.ok false ∧
    IsAsteriskFree (parsesTo (policyWith
        (statementWith (JSON.arr [JSON.str "*", JSON.num "4"])))) "text"
      = Except.ok false := by
  refine ⟨fun h => ?_, rfl, rfl⟩
  have hf := h (parsesTo (policyWith
      (JSON.arr [statementWith (JSON.str "*"), statementWith (JSON.num "4")]))) "text"
    _ rfl ⟨statementWith (JSON.num "4"), by simp [statements, statementValue, policyWith,
      JSON.field, List.lookup], rfl⟩
  exact not_fails_ok false hf

/-- C9, amended: a statement of an unaccepted shape that is reached is fatal.
When the statement at some index of the statements at PolicyDocument.Statement
(the object itself, or an element of the array) has a Resource that is neither
a string nor an array, or an array with a non-string element before which no
string of that array contains `*`, and `statementHasAsterisk` returns `true` on
no statement before that index, `IsAsteriskFree` fails and returns no boolean. -/
theorem invalid_statement_reached_fails (ParseJSON : String → Except String JSON)
    (text : String) (doc : JSON) (hp : ParseJSON text = Except.ok doc)
    (pre : List JSON) (x : JSON) (post : List JSON) (v : JSON)
    (hst : statements doc = pre ++ x :: post)
    (hpre : ∀ y ∈ pre, statementHasAsterisk (some y) ≠ Except.ok true)
    (hv : x.field "Resource" = some v) (hrej : ResourceRejected v) :
    Fails (IsAsteriskFree ParseJSON text) ∧
      ∀ b, IsAsteriskFree ParseJSON text ≠ Except.ok b := by
  have hf : Fails (IsAsteriskFree ParseJSON text) := by
    rw [IsAsteriskFree_parsed ParseJSON text doc hp]
    exact isAsteriskFreeParsed_fails_of_reached doc pre x post hst hpre
      (statementHasAsterisk_fails_of_rejected (some x) v hv hrej)
  refine ⟨hf, fun b hb => ?_⟩
  rw [hb] at hf
  exact not_fails_ok b hf

/-- Witness of the amended C9: the second of two statements has the Resource
["ok", 4], the first has no asterisk. -/
theorem invalid_statement_reached_fails_witness :
    statements (policyWith (JSON.arr [statementWith (JSON.str "arn:aws:s3:::b"),
        statementWith (JSON.arr [JSON.str "ok", JSON.num "4"])]))
      = [statementWith (JSON.str "arn:aws:s3:::b")]
        ++ statementWith (JSON.arr [JSON.str "ok", JSON.num "4"]) :: [] ∧
    (Fails (IsAsteriskFree (parsesTo (policyWith
        (JSON.arr [statementWith (JSON.str "arn:aws:s3:::b"),
          statementWith (JSON.arr [JSON.str "ok", JSON.num "4"])]))) "text") ∧
      ∀ b, IsAsteriskFree (parsesTo (policyWith
        (JSON.arr [statementWith (JSON.str "arn:aws:s3:::b"),
          statementWith (JSON.arr [JSON.str "ok", JSON.num "4"])]))) "text"
        ≠ Except.ok b) :=
  ⟨rfl, invalid_statement_reached_fails _ "text" _ rfl
    [statementWith (JSON.str "arn:aws:s3:::b")]
    (statementWith (JSON.arr [JSON.str "ok", JSON.num "4"])) []
    (JSON.arr [JSON.str "ok", JSON.num "4"]) rfl
    (by
      intro y hy
      rw [List.mem_singleton.1 hy]
      intro h
      have h2 : (Except.ok false : Except String Bool) = Except.ok true := h
      exact absurd (Except.ok.inj h2) (by decide))
    rfl
    (Or.inr ⟨[JSON.str "ok"], JSON.num "4", [], rfl, by
      intro y hy
      rw [List.mem_singleton.1 hy]
      exact ⟨rfl, by simp [JSON.IsStarString, HasStar]⟩, rfl⟩)⟩

theorem resourceLoop_first_star (pre : List JSON) (s : String) (post : List JSON)
    (hpre : ∀ y ∈ pre, y.isStr = true) (hs : HasStar s) :
    resourceLoop ((pre ++ JSON.str s :: post).map some) = Except.ok true := by
  induction pre with
  | nil =>
    rw [List.nil_append, resourceLoop_cons_str, if_pos ((stringsContains_star s).2 hs)]
  | cons y pre ih =>
    have hy := hpre y (List.mem_cons_self _ _)
    cases y <;> simp [JSON.isStr] at hy
    case str t =>
      rw [List.cons_append, resourceLoop_cons_str]
      by_cases hc : stringsContains t "*" = true
      · rw [if_pos hc]
      · rw [if_neg hc]
        exact ih (fun z hz => hpre z (List.mem_cons_of_mem _ hz))

theorem statementLoop_first_true (pre : List JSON) (x : JSON) (post : List JSON)
    (hpre : ∀ y ∈ pre, statementHasAsterisk (some y) = Except.ok false)
    (hx : statementHasAsterisk (some x) = Except.ok true) :
    statementLoop ((pre ++ x :: post).map some) = Except.ok false := by
  induction pre with
  | nil => simp [statementLoop, hx]
  | cons y pre ih =>
    simp only [List.cons_append, List.map_cons, statementLoop,
      hpre y (List.mem_cons_self _ _)]
    exact ih (fun z hz => hpre z (List.mem_cons_of_mem _ hz))

/-- C10: short-circuit correctness.  When the Resource of a statement object is
an array whose element at some index is a string containing `*` and whose
earlier elements are all strings, `statementHasAsterisk` returns `true` whatever
the later elements are, non-strings included.  When PolicyDocument.Statement is
an array whose element at some index makes `statementHasAsterisk` return `true`
and whose earlier elements all make it return `false`, `IsAsteriskFree` returns
`false` whatever the later elements are. -/
theorem short_circuit_correct :
    (∀ (sf : List (String × JSON)) (pre : List JSON) (s : String) (post : List JSON),
      sf.lookup "Resource" = some (JSON.arr (pre ++ JSON.str s :: post)) →
      (∀ y ∈ pre, y.isStr = true) → HasStar s →
      statementHasAsterisk (some (JSON.obj sf)) = Except.ok true) ∧
    (∀ (ParseJSON : String → Except String JSON) (text : String) (doc : JSON)
      (pre : List JSON) (x : JSON) (post : List JSON),
      ParseJSON text = Except.ok doc →
      statementValue doc = some (JSON.arr (pre ++ x :: post)) →
      (∀ y ∈ pre, statementHasAsterisk (some y) = Except.ok false) →
      statementHasAsterisk (some x) = Except.ok true →
      IsAsteriskFree ParseJSON text = Except.ok false) := by
  constructor
  · intro sf pre s post hr hpre hs
    rw [statementHasAsterisk_arr (some (JSON.obj sf)) _ hr]
    exact resourceLoop_first_star pre s post hpre hs
  · intro ParseJSON text doc pre x post hp hv hpre hx
    rw [IsAsteriskFree_parsed ParseJSON text doc hp, isAsteriskFreeParsed_arr doc _ hv]
    exact statementLoop_first_true pre x post hpre hx

/-- Witness of C10: the Resource ["a", "b*", 4, null] with the asterisk at
index 1 and non-strings after it, and a Statement array whose element at index
1 has that Resource and is followed by the number 4 and a statement whose
Resource is a boolean. -/
theorem short_circuit_correct_witness :
    statementHasAsterisk (some (JSON.obj [("Effect", JSON.str "Allow"),
        ("Resource", JSON.arr ([JSON.str "a"]
          ++ JSON.str "b*" :: [JSON.num "4", JSON.null]))]))
      = Except.ok true ∧
    IsAsteriskFree (parsesTo (policyWith (JSON.arr
        ([statementWith (JSON.str "a")]
          ++ statementWith (JSON.arr [JSON.str "a", JSON.str "b*", JSON.num "4"])
            :: [JSON.num "4", statementWith (JSON.bool true)])))) "text"
      = Except.ok false :=
  ⟨short_circuit_correct.1 _ [JSON.str "a"] "b*" [JSON.num "4", JSON.null] rfl
      (by
        intro y hy
        rw [List.mem_singleton.1 hy]
        rfl)
      (by decide),
    short_circuit_correct.2 _ "text" _ [statementWith (JSON.str "a")]
      (statementWith (JSON.arr [JSON.str "a", JSON.str "b*", JSON.num "4"]))
      [JSON.num "4", statementWith (JSON.bool true)] rfl rfl
      (by
        intro y hy
        rw [List.mem_singleton.1 hy]
        rfl)
      rfl⟩

theorem field_of_not_obj (v : JSON) (key : String) (h : v.isObj = false) :
    v.field key = none := by
  cases v <;> simp_all [JSON.field, JSON.isObj]

theorem statementHasAsterisk_congr (s₁ s₂ : Container)
    (h : (Data s₁).field "Resource" = (Data s₂).field "Resource") :
    statementHasAsterisk s₁ = statementHasAsterisk s₂ := by
  cases hv : (Data s₂).field "Resource" with
  | none =>
    rw [statementHasAsterisk_absent s₁ (h.trans hv), statementHasAsterisk_absent s₂ hv]
  | some v =>
    have h₁ := h.trans hv
    cases hs : v.isStr with
    | true =>
      cases v <;> simp [JSON.isStr] at hs
      case str t =>
        rw [statementHasAsterisk_str s₁ t h₁, statementHasAsterisk_str s₂ t hv]
    | false =>
      cases ha : v.isArr with
      | true =>
        cases v <;> simp [JSON.isArr] at ha
        case arr elems =>
          rw [statementHasAsterisk_arr s₁ elems h₁, statementHasAsterisk_arr s₂ elems hv]
      | false =>
        rw [statementHasAsterisk_other s₁ v h₁ hs ha,
          statementHasAsterisk_other s₂ v hv hs ha]

theorem statementLoop_congr (e₁ e₂ : List JSON)
    (h : List.Forall₂ (fun x y => x.field "Resource" = y.field "Resource") e₁ e₂) :
    statementLoop (e₁.map some) = statementLoop (e₂.map some) := by
  induction h with
  | nil => rfl
  | @cons x y _ _ hxy _ ih =>
    simp only [List.map_cons, statementLoop]
    rw [statementHasAsterisk_congr (some x) (some y) hxy, ih]

/-- C11, as stated, fails: an array is a value that is not an object, and the
empty array placed directly at Statement is not fatal; `IsAsteriskFree` returns
`true` on it, as it does on the array holding the empty array. -/
theorem non_object_at_statement_not_always_fatal :
    ¬ (∀ (ParseJSON : String → Except String JSON) (text : String) (doc v : JSON),
        ParseJSON text = Except.ok doc → v.isObj = false →
        statementValue doc = some v → Fails (IsAsteriskFree ParseJSON text)) ∧
    statementHasAsterisk (some (JSON.arr [])) = Except.ok false ∧
    IsAsteriskFree (parsesTo (policyWith (JSON.arr [JSON.arr []]))) "text"
      = Except.ok true ∧
    IsAsteriskFree (parsesTo (policyWith (JSON.arr []))) "text" = Except.ok true := by
  refine ⟨fun h => ?_, rfl, rfl, rfl⟩
  exact not_fails_ok true
    (h (parsesTo (policyWith (JSON.arr []))) "text" _ (JSON.arr []) rfl rfl rfl)

/-- C11, amended: on a statement that is the nil container, an empty container
or null, or any JSON value that is not an object (number, string, boolean,
array), `statementHasAsterisk` returns `false` and does not fail; so a Statement
array whose elements are all non-objects makes `IsAsteriskFree` return `true`;
while a number, string, boolean or null placed directly at Statement is fatal
(an array placed there is read as the array of statements). -/
theorem non_object_statement_benign :
    (∀ st : Container, (Data st).isObj = false →
      statementHasAsterisk st = Except.ok false) ∧
    (∀ (ParseJSON : String → Except String JSON) (text : String) (doc : JSON)
      (elems : List JSON),
      ParseJSON text = Except.ok doc →
      statementValue doc = some (JSON.arr elems) →
      (∀ x ∈ elems, x.isObj = false) →
      IsAsteriskFree ParseJSON text = Except.ok true) ∧
    (∀ (ParseJSON : String → Except String JSON) (text : String) (doc v : JSON),
      ParseJSON text = Except.ok doc →
      statementValue doc = some v → v.isObj = false → v.isArr = false →
      Fails (IsAsteriskFree ParseJSON text)) := by
  refine ⟨fun st h => ?_, ?_, ?_⟩
  · exact statementHasAsterisk_absent st (field_of_not_obj _ _ h)
  · intro ParseJSON text doc elems hp hv hall
    rw [IsAsteriskFree_parsed ParseJSON text doc hp, isAsteriskFreeParsed_arr doc elems hv]
    exact statementLoop_all_false elems (fun x hx =>
      statementHasAsterisk_absent (some x) (field_of_not_obj _ _ (hall x hx)))
  · intro ParseJSON text doc v hp hv ho ha
    rw [IsAsteriskFree_parsed ParseJSON text doc hp, isAsteriskFreeParsed_other doc v hv ho ha]
    exact ⟨_, rfl⟩

/-- Witness of the amended C11: the nil statement, the number 4 as a statement,
the Statement array [4, "s", true, null, []], and the number 4 at Statement. -/
theorem non_object_statement_benign_witness :
    statementHasAsterisk none = Except.ok false ∧
    statementHasAsterisk (some (JSON.num "4")) = Except.ok false ∧
    IsAsteriskFree (parsesTo (policyWith (JSON.arr
        [JSON.num "4", JSON.str "s", JSON.bool true, JSON.null, JSON.arr []]))) "text"
      = Except.ok true ∧
    Fails (IsAsteriskFree (parsesTo (policyWith (JSON.num "4"))) "text") :=
  ⟨non_object_statement_benign.1 none rfl,
    non_object_statement_benign.1 (some (JSON.num "4")) rfl,
    non_object_statement_benign.2.1 _ "text" _
      [JSON.num "4", JSON.str "s", JSON.bool true, JSON.null, JSON.arr []] rfl rfl
      (by
        intro x hx
        simp only [List.mem_cons, List.mem_singleton, List.not_mem_nil, or_false] at hx
        rcases hx with rfl | rfl | rfl | rfl | rfl <;> rfl),
    non_object_statement_benign.2.2 _ "text" _ (JSON.num "4") rfl rfl rfl rfl⟩

/-- C12: on every resource value that is not a JSON string (a number, a
boolean, an array even of strings, an object, an empty container or null, the
nil container), `resourceHasAsterisk` panics with the message that the resource
is not a string, and returns no boolean. -/
theorem resourceHasAsterisk_not_string_fails (resource : Container)
    (h : (Data resource).isStr = false) :
    resourceHasAsterisk resource = Except.error "Resource is not a string." ∧
      ∀ b, resourceHasAsterisk resource ≠ Except.ok b := by
  have he : resourceHasAsterisk resource = Except.error "Resource is not a string." := by
    unfold resourceHasAsterisk
    cases hd : Data resource <;> simp_all [JSON.isStr]
  refine ⟨he, fun b hb => ?_⟩
  rw [he] at hb
  cases hb

/-- Witness of C12: the test resource that is the array ["bad input"]. -/
theorem resourceHasAsterisk_not_string_fails_witness :
    resourceHasAsterisk (some (JSON.arr [JSON.str "bad input"]))
        = Except.error "Resource is not a string." ∧
      ∀ b, resourceHasAsterisk (some (JSON.arr [JSON.str "bad input"])) ≠ Except.ok b :=
  resourceHasAsterisk_not_string_fails (some (JSON.arr [JSON.str "bad input"])) rfl

theorem isAsteriskFreeParsed_congr (d₁ d₂ : JSON) (h : SameResources d₁ d₂) :
    isAsteriskFreeParsed (some d₁) = isAsteriskFreeParsed (some d₂) := by
  rcases h with ⟨h₁, h₂⟩ | ⟨f₁, f₂, h₁, h₂, hr⟩ | ⟨e₁, e₂, h₁, h₂, hr⟩ |
    ⟨v₁, v₂, h₁, h₂, ho₁, ha₁, ho₂, ha₂⟩
  · rw [isAsteriskFreeParsed_absent d₁ h₁, isAsteriskFreeParsed_absent d₂ h₂]
  · rw [isAsteriskFreeParsed_obj d₁ f₁ h₁, isAsteriskFreeParsed_obj d₂ f₂ h₂,
      statementHasAsterisk_congr (some (JSON.obj f₁)) (some (JSON.obj f₂)) hr]
  · rw [isAsteriskFreeParsed_arr d₁ e₁ h₁, isAsteriskFreeParsed_arr d₂ e₂ h₂,
      statementLoop_congr e₁ e₂ hr]
  · rw [isAsteriskFreeParsed_other d₁ v₁ h₁ ho₁ ha₁,
      isAsteriskFreeParsed_other d₂ v₂ h₂ ho₂ ha₂]

/-- C13: the result of `IsAsteriskFree` depends only on the Resource fields of
the statements at PolicyDocument.Statement.  Two parsed documents that have the
same shape at PolicyDocument.Statement and whose corresponding statements have
equal Resource values (or both none) make `IsAsteriskFree` behave identically:
the same boolean, or the same panic; whatever the other fields contain. -/
theorem depends_only_on_resources (ParseJSON : String → Except String JSON)
    (text₁ text₂ : String) (doc₁ doc₂ : JSON)
    (hp₁ : ParseJSON text₁ = Except.ok doc₁) (hp₂ : ParseJSON text₂ = Except.ok doc₂)
    (h : SameResources doc₁ doc₂) :
    IsAsteriskFree ParseJSON text₁ = IsAsteriskFree ParseJSON text₂ := by
  rw [IsAsteriskFree_parsed ParseJSON text₁ doc₁ hp₁,
    IsAsteriskFree_parsed ParseJSON text₂ doc₂ hp₂]
  exact isAsteriskFreeParsed_congr doc₁ doc₂ h

/-- Witness of C13: two policies with the Resource values "a" and ["b"] in their
two statements; the second policy has asterisks in PolicyName, Version, Sid,
Effect and Action. -/
theorem depends_only_on_resources_witness :
    IsAsteriskFree
        (fun t => if t = "plain" then
            Except.ok (policyWith (JSON.arr [statementWith (JSON.str "a"),
              statementWith (JSON.arr [JSON.str "b"])]))
          else Except.ok (JSON.obj [("PolicyName", JSON.str "*"),
            ("PolicyDocument", JSON.obj [("Version", JSON.str "2012-*"),
              ("Statement", JSON.arr
                [JSON.obj [("Sid", JSON.str "*"), ("Resource", JSON.str "a")],
                 JSON.obj [("Resource", JSON.arr [JSON.str "b"]),
                   ("Effect", JSON.str "*"), ("Action", JSON.str "s3:*")]])])]))
        "plain"
      = IsAsteriskFree
        (fun t => if t = "plain" then
            Except.ok (policyWith (JSON.arr [statementWith (JSON.str "a"),
              statementWith (JSON.arr [JSON.str "b"])]))
          else Except.ok (JSON.obj [("PolicyName", JSON.str "*"),
            ("PolicyDocument", JSON.obj [("Version", JSON.str "2012-*"),
              ("Statement", JSON.arr
                [JSON.obj [("Sid", JSON.str "*"), ("Resource", JSON.str "a")],
                 JSON.obj [("Resource", JSON.arr [JSON.str "b"]),
                   ("Effect", JSON.str "*"), ("Action", JSON.str "s3:*")]])])]))
        "starred" :=
  depends_only_on_resources _ "plain" "starred" _ _ rfl rfl
    (Or.inr (Or.inr (Or.inl ⟨_, _, rfl, rfl,
      List.Forall₂.cons rfl (List.Forall₂.cons rfl List.Forall₂.nil)⟩)))

theorem statementValue_of_not_obj (doc : JSON) (h : doc.isObj = false) :
    statementValue doc = none := by
  simp [statementValue, field_of_not_obj doc _ h]

theorem statementValue_of_policyDocument_not_obj (doc v : JSON)
    (hv : doc.field "PolicyDocument" = some v) (h : v.isObj = false) :
    statementValue doc = none := by
  simp [statementValue, hv, field_of_not_obj v _ h]

theorem JSONPointer_statement (doc : JSON) (h : statementValue doc = none) :
    JSONPointer (some doc) ["PolicyDocument", "Statement"] = none := by
  simp [JSONPointer, Data, searchPath_PolicyDocument_Statement, h]

theorem statementValue_of_fails (doc : JSON) (h : Fails (isAsteriskFreeParsed (some doc))) :
    ∃ v, statementValue doc = some v := by
  cases hv : statementValue doc with
  | none =>
    rw [isAsteriskFreeParsed_absent doc hv] at h
    exact absurd h (not_fails_ok true)
  | some v => exact ⟨v, rfl⟩

/-- C15: on a parsed document whose root is not a JSON object (number, string,
boolean, null, array), or whose PolicyDocument value is present but is not a
JSON object, the path PolicyDocument.Statement does not resolve and
`IsAsteriskFree` returns `true` without failing.  A failure needs a value at
PolicyDocument.Statement, and a value there that is neither an object nor an
array is fatal. -/
theorem unresolved_path_is_safe :
    (∀ (ParseJSON : String → Except String JSON) (text : String) (doc : JSON),
      ParseJSON text = Except.ok doc →
      (doc.isObj = false ∨
        ∃ v, doc.field "PolicyDocument" = some v ∧ v.isObj = false) →
      JSONPointer (some doc) ["PolicyDocument", "Statement"] = none ∧
        IsAsteriskFree ParseJSON text = Except.ok true) ∧
    (∀ (ParseJSON : String → Except String JSON) (text : String) (doc : JSON),
      ParseJSON text = Except.ok doc → Fails (IsAsteriskFree ParseJSON text) →
      ∃ v, statementValue doc = some v) ∧
    (∀ (ParseJSON : String → Except String JSON) (text : String) (doc v : JSON),
      ParseJSON text = Except.ok doc →
      statementValue doc = some v → v.isObj = false → v.isArr = false →
      Fails (IsAsteriskFree ParseJSON text)) := by
  refine ⟨?_, ?_, ?_⟩
  · intro ParseJSON text doc hp h
    have hv : statementValue doc = none := by
      rcases h with h | ⟨v, hv, h⟩
      · exact statementValue_of_not_obj doc h
      · exact statementValue_of_policyDocument_not_obj doc v hv h
    refine ⟨JSONPointer_statement doc hv, ?_⟩
    rw [IsAsteriskFree_parsed ParseJSON text doc hp]
    exact isAsteriskFreeParsed_absent doc hv
  · intro ParseJSON text doc hp hf
    rw [IsAsteriskFree_parsed ParseJSON text doc hp] at hf
    exact statementValue_of_fails doc hf
  · intro ParseJSON text doc v hp hv ho ha
    rw [IsAsteriskFree_parsed ParseJSON text doc hp, isAsteriskFreeParsed_other doc v hv ho ha]
    exact ⟨_, rfl⟩

/-- Witness of C15: a root that is an array holding a policy, a PolicyDocument
that is an array holding a Statement with an asterisk, and a Statement that is
a boolean. -/
theorem unresolved_path_is_safe_witness :
    (JSONPointer (some (JSON.arr [policyWith (statementWith (JSON.str "*"))]))
        ["PolicyDocument", "Statement"] = none ∧
      IsAsteriskFree (parsesTo (JSON.arr [policyWith (statementWith (JSON.str "*"))]))
        "text" = Except.ok true) ∧
    (JSONPointer (some (JSON.obj [("PolicyDocument",
          JSON.arr [JSON.obj [("Statement", statementWith (JSON.str "*"))]])]))
        ["PolicyDocument", "Statement"] = none ∧
      IsAsteriskFree (parsesTo (JSON.obj [("PolicyDocument",
          JSON.arr [JSON.obj [("Statement", statementWith (JSON.str "*"))]])]))
        "text" = Except.ok true) ∧
    Fails (IsAsteriskFree (parsesTo (policyWith (JSON.bool true))) "text") :=
  ⟨unresolved_path_is_safe.1 _ "text" _ rfl (Or.inl rfl),
    unresolved_path_is_safe.1 _ "text" _ rfl (Or.inr ⟨_, rfl, rfl⟩),
    unresolved_path_is_safe.2.2 _ "text" _ (JSON.bool true) rfl rfl rfl rfl⟩

theorem statementLoop_fails_iff (elems : List JSON) :
    Fails (statementLoop (elems.map some)) ↔
      ∃ pre x post, elems = pre ++ x :: post ∧
        (∀ y ∈ pre, statementHasAsterisk (some y) = Except.ok false) ∧
        Fails (statementHasAsterisk (some x)) := by
  constructor
  · intro hf
    induction elems with
    | nil => exact absurd hf (not_fails_ok true)
    | cons a rest ih =>
      simp only [List.map_cons, statementLoop] at hf
      cases hr : statementHasAsterisk (some a) with
      | error e => exact ⟨[], a, rest, rfl, by simp, ⟨e, hr⟩⟩
      | ok b =>
        rw [hr] at hf
        cases b with
        | true => exact absurd hf (not_fails_ok false)
        | false =>
          obtain ⟨pre, x, post, he, hpre, hx⟩ := ih hf
          refine ⟨a :: pre, x, post, by rw [he]; rfl, ?_, hx⟩
          intro y hy
          rcases List.mem_cons.1 hy with rfl | hy
          · exact hr
          · exact hpre y hy
  · rintro ⟨pre, x, post, rfl, hpre, hx⟩
    refine statementLoop_fails pre x post (fun y hy h => ?_) hx
    rw [hpre y hy] at h
    cases h

theorem isAsteriskFreeParsed_fails_iff (doc : JSON) :
    Fails (isAsteriskFreeParsed (some doc)) ↔
      ∃ v, statementValue doc = some v ∧ StatementFatal v := by
  cases hv : statementValue doc with
  | none =>
    rw [isAsteriskFreeParsed_absent doc hv]
    constructor
    · intro h; exact absurd h (not_fails_ok true)
    · rintro ⟨v, h, _⟩; cases h
  | some v =>
    cases v with
    | obj fields =>
      rw [isAsteriskFreeParsed_obj doc fields hv]
      constructor
      · intro hf
        refine ⟨_, rfl, Or.inr (Or.inl ⟨rfl, ?_⟩)⟩
        cases hr : statementHasAsterisk (some (JSON.obj fields)) with
        | error e => exact ⟨e, rfl⟩
        | ok b =>
          rw [hr] at hf
          exact absurd hf (not_fails_ok _)
      · rintro ⟨w, hw, hfat⟩
        cases hw
        rcases hfat with ⟨ho, _⟩ | ⟨_, e, he⟩ | ⟨pre, x, post, h, _⟩
        · cases ho
        · rw [he]; exact ⟨e, rfl⟩
        · cases h
    | arr elems =>
      rw [isAsteriskFreeParsed_arr doc elems hv, statementLoop_fails_iff]
      constructor
      · rintro ⟨pre, x, post, he, hpre, hx⟩
        exact ⟨_, rfl, Or.inr (Or.inr ⟨pre, x, post, by rw [he], hpre, hx⟩)⟩
      · rintro ⟨w, hw, hfat⟩
        cases hw
        rcases hfat with ⟨_, ha⟩ | ⟨ho, _⟩ | ⟨pre, x, post, h, hpre, hx⟩
        · cases ha
        · cases ho
        · exact ⟨pre, x, post, JSON.arr.inj h, hpre, hx⟩
    | null =>
      rw [isAsteriskFreeParsed_other doc _ hv rfl rfl]
      exact ⟨fun _ => ⟨_, rfl, Or.inl ⟨rfl, rfl⟩⟩, fun _ => ⟨_, rfl⟩⟩
    | bool b =>
      rw [isAsteriskFreeParsed_other doc _ hv rfl rfl]
      exact ⟨fun _ => ⟨_, rfl, Or.inl ⟨rfl, rfl⟩⟩, fun _ => ⟨_, rfl⟩⟩
    | num n =>
      rw [isAsteriskFreeParsed_other doc _ hv rfl rfl]
      exact ⟨fun _ => ⟨_, rfl, Or.inl ⟨rfl, rfl⟩⟩, fun _ => ⟨_, rfl⟩⟩
    | str t =>
      rw [isAsteriskFreeParsed_other doc _ hv rfl rfl]
      exact ⟨fun _ => ⟨_, rfl, Or.inl ⟨rfl, rfl⟩⟩, fun _ => ⟨_, rfl⟩⟩

/-- C16: on a parsed document `IsAsteriskFree` fails exactly when the value at
PolicyDocument.Statement is present and either is neither an object nor an
array, or is an object on which `statementHasAsterisk` fails, or is an array
with an element on which `statementHasAsterisk` fails while it returns `false`
on every element before it; in every other case a boolean is returned. -/
theorem isAsteriskFree_fails_iff (ParseJSON : String → Except String JSON)
    (text : String) (doc : JSON) (hp : ParseJSON text = Except.ok doc) :
    (Fails (IsAsteriskFree ParseJSON text) ↔
      ∃ v, statementValue doc = some v ∧ StatementFatal v) ∧
    ((∃ v, statementValue doc = some v ∧ StatementFatal v) ∨
      ∃ b, IsAsteriskFree ParseJSON text = Except.ok b) := by
  rw [IsAsteriskFree_parsed ParseJSON text doc hp]
  refine ⟨isAsteriskFreeParsed_fails_iff doc, ?_⟩
  rcases fails_or_returns (isAsteriskFreeParsed (some doc)) with hf | ⟨b, hb⟩
  · exact Or.inl ((isAsteriskFreeParsed_fails_iff doc).1 hf)
  · exact Or.inr ⟨b, hb⟩

/-- Witness of C16: a Statement array whose second statement has the Resource 4
and whose first statement has no asterisk; the call fails, and the value at
Statement is fatal by its second element. -/
theorem isAsteriskFree_fails_iff_witness :
    (Fails (IsAsteriskFree (parsesTo (policyWith
        (JSON.arr [statementWith (JSON.str "a"), statementWith (JSON.num "4")]))) "text") ↔
      ∃ v, statementValue (policyWith
        (JSON.arr [statementWith (JSON.str "a"), statementWith (JSON.num "4")])) = some v ∧
        StatementFatal v) ∧
    ((∃ v, statementValue (policyWith
        (JSON.arr [statementWith (JSON.str "a"), statementWith (JSON.num "4")])) = some v ∧
        StatementFatal v) ∨
      ∃ b, IsAsteriskFree (parsesTo (policyWith
        (JSON.arr [statementWith (JSON.str "a"), statementWith (JSON.num "4")]))) "text"
        = Except.ok b) :=
  isAsteriskFree_fails_iff _ "text" _ rfl

theorem resourceLoop_false (elems : List JSON)
    (h : resourceLoop (elems.map some) = Except.ok false) :
    ∀ x ∈ elems, x.isStr = true ∧ ¬ x.IsStarString := by
  induction elems with
  | nil => intro x hx; cases hx
  | cons a rest ih =>
    cases ha : a.isStr with
    | false =>
      rw [resourceLoop_cons_not_str a rest ha] at h
      cases h
    | true =>
      cases a <;> simp [JSON.isStr] at ha
      case str s =>
        rw [resourceLoop_cons_str] at h
        by_cases hc : stringsContains s "*" = true
        · rw [if_pos hc] at h
          cases h
        · rw [if_neg hc] at h
          intro x hx
          rcases List.mem_cons.1 hx with rfl | hx
          · exact ⟨rfl, fun hs => hc ((stringsContains_star s).2 hs)⟩
          · exact ih h x hx

theorem statementHasAsterisk_false (st : JSON)
    (h : statementHasAsterisk (some st) = Except.ok false) :
    (∀ s ∈ resourceStrings st, ¬ HasStar s) ∧
    (∀ elems, st.field "Resource" = some (JSON.arr elems) → ∀ x ∈ elems, x.isStr = true) := by
  cases hv : st.field "Resource" with
  | none => simp [resourceStrings, hv]
  | some v =>
    cases v with
    | str t =>
      rw [statementHasAsterisk_str (some st) t hv] at h
      have hc : stringsContains t "*" = false := Except.ok.inj h
      refine ⟨?_, by simp⟩
      intro s hs hstar
      simp only [resourceStrings, hv, List.mem_singleton] at hs
      subst hs
      rw [(stringsContains_star s).2 hstar] at hc
      cases hc
    | arr elems =>
      rw [statementHasAsterisk_arr (some st) elems hv] at h
      have hall := resourceLoop_false elems h
      refine ⟨?_, ?_⟩
      · intro s hs hstar
        simp only [resourceStrings, hv] at hs
        obtain ⟨x, hx, hxs⟩ := List.mem_filterMap.1 hs
        cases x <;> simp [JSON.strOf] at hxs
        case str t =>
          subst hxs
          exact (hall _ hx).2 hstar
      · intro e he x hx
        cases he
        exact (hall x hx).1
    | null => rw [statementHasAsterisk_other (some st) _ hv rfl rfl] at h; cases h
    | bool b => rw [statementHasAsterisk_other (some st) _ hv rfl rfl] at h; cases h
    | num n => rw [statementHasAsterisk_other (some st) _ hv rfl rfl] at h; cases h
    | obj fields => rw [statementHasAsterisk_other (some st) _ hv rfl rfl] at h; cases h

theorem statementLoop_true (elems : List JSON)
    (h : statementLoop (elems.map some) = Except.ok true) :
    ∀ x ∈ elems, statementHasAsterisk (some x) = Except.ok false := by
  induction elems with
  | nil => intro x hx; cases hx
  | cons a rest ih =>
    simp only [List.map_cons, statementLoop] at h
    cases hr : statementHasAsterisk (some a) with
    | error e => rw [hr] at h; cases h
    | ok b =>
      rw [hr] at h
      cases b with
      | true => cases h
      | false =>
        intro x hx
        rcases List.mem_cons.1 hx with rfl | hx
        · exact hr
        · exact ih h x hx

theorem isAsteriskFreeParsed_true (doc : JSON)
    (h : isAsteriskFreeParsed (some doc) = Except.ok true) :
    ∀ st ∈ statements doc, statementHasAsterisk (some st) = Except.ok false := by
  intro st hst
  unfold statements at hst
  cases hv : statementValue doc with
  | none => rw [hv] at hst; cases hst
  | some v =>
    rw [hv] at hst
    cases v with
    | obj fields =>
      have hst2 : st = JSON.obj fields := List.mem_singleton.1 hst
      rw [isAsteriskFreeParsed_obj doc fields hv] at h
      rw [hst2]
      cases hr : statementHasAsterisk (some (JSON.obj fields)) with
      | error e => rw [hr] at h; cases h
      | ok b =>
        rw [hr] at h
        cases b with
        | true => cases h
        | false => rfl
    | arr elems =>
      rw [isAsteriskFreeParsed_arr doc elems hv] at h
      exact statementLoop_true elems h st hst
    | null => cases hst
    | bool b => cases hst
    | num n => cases hst
    | str t => cases hst

/-- C17: a `true` verdict is sound on every parsed document, well-shaped or not.
Whenever `IsAsteriskFree` returns `true`, `statementHasAsterisk` returned `false`
on every statement at PolicyDocument.Statement (the object, or every element of
the array), so each was scanned to its end: no string at its Resource field or
among the elements of its Resource array contains `*`, and every element of a
Resource array is a string. -/
theorem true_verdict_sound (ParseJSON : String → Except String JSON)
    (text : String) (doc : JSON) (hp : ParseJSON text = Except.ok doc)
    (htrue : IsAsteriskFree ParseJSON text = Except.ok true) :
    ∀ st ∈ statements doc,
      statementHasAsterisk (some st) = Except.ok false ∧
      (∀ s ∈ resourceStrings st, ¬ HasStar s) ∧
      (∀ elems, st.field "Resource" = some (JSON.arr elems) →
        ∀ x ∈ elems, x.isStr = true) := by
  rw [IsAsteriskFree_parsed ParseJSON text doc hp] at htrue
  intro st hst
  have hf := isAsteriskFreeParsed_true doc htrue st hst
  exact ⟨hf, statementHasAsterisk_false st hf⟩

/-- Witness of C17: a Statement array of a statement with two Resource strings,
a number, and a statement without Resource; the verdict is `true`. -/
theorem true_verdict_sound_witness :
    IsAsteriskFree (parsesTo (policyWith (JSON.arr
        [statementWith (JSON.arr [JSON.str "a", JSON.str "b"]), JSON.num "4",
          statementWithout]))) "text" = Except.ok true ∧
    ∀ st ∈ statements (policyWith (JSON.arr
        [statementWith (JSON.arr [JSON.str "a", JSON.str "b"]), JSON.num "4",
          statementWithout])),
      statementHasAsterisk (some st) = Except.ok false ∧
      (∀ s ∈ resourceStrings st, ¬ HasStar s) ∧
      (∀ elems, st.field "Resource" = some (JSON.arr elems) →
        ∀ x ∈ elems, x.isStr = true) :=
  ⟨rfl, true_verdict_sound
    (parsesTo (policyWith (JSON.arr
      [statementWith (JSON.arr [JSON.str "a", JSON.str "b"]), JSON.num "4",
        statementWithout]))) "text" _ rfl rfl⟩

theorem resourceWellShaped_congr (s t : JSON)
    (h : s.field "Resource" = t.field "Resource") :
    resourceWellShaped s = resourceWellShaped t ∧ resourceStrings s = resourceStrings t := by
  simp only [resourceWellShaped, resourceStrings, h, and_self]

theorem resourcePermuted_wellShaped (s t : JSON) (h : ResourcePermuted s t)
    (hw : resourceWellShaped s = true) :
    resourceWellShaped t = true ∧
      ((∃ a ∈ resourceStrings s, HasStar a) ↔ ∃ a ∈ resourceStrings t, HasStar a) := by
  rcases h with h | ⟨r₁, r₂, h₁, h₂, hp⟩
  · obtain ⟨hws, hrs⟩ := resourceWellShaped_congr s t h
    rw [← hws, ← hrs]
    exact ⟨hw, Iff.rfl⟩
  · simp only [resourceWellShaped, h₁, List.all_eq_true] at hw
    refine ⟨?_, ?_⟩
    · simp only [resourceWellShaped, h₂, List.all_eq_true]
      exact fun x hx => hw x (hp.mem_iff.2 hx)
    · simp only [resourceStrings, h₁, h₂, ← exists_starString_iff]
      constructor
      · rintro ⟨x, hx, hs⟩
        exact ⟨x, hp.mem_iff.1 hx, hs⟩
      · rintro ⟨x, hx, hs⟩
        exact ⟨x, hp.mem_iff.2 hx, hs⟩

theorem forall₂_resourcePermuted (e₁ e : List JSON)
    (h : List.Forall₂ ResourcePermuted e₁ e)
    (hw : ∀ x ∈ e₁, resourceWellShaped x = true) :
    (∀ y ∈ e, resourceWellShaped y = true) ∧
      ((∃ x ∈ e₁, ∃ a ∈ resourceStrings x, HasStar a) ↔
        ∃ y ∈ e, ∃ a ∈ resourceStrings y, HasStar a) := by
  induction h with
  | nil => simp
  | @cons x y l₁ l₂ hxy _ ih =>
    obtain ⟨hy, hiff⟩ := resourcePermuted_wellShaped x y hxy (hw x (List.mem_cons_self _ _))
    obtain ⟨hall, hex⟩ := ih (fun z hz => hw z (List.mem_cons_of_mem _ hz))
    refine ⟨?_, ?_⟩
    · intro z hz
      rcases List.mem_cons.1 hz with rfl | hz
      · exact hy
      · exact hall z hz
    · simp only [List.exists_mem_cons_iff, hiff, hex]

/-- C18: order independence on well-shaped input.  When the Statement of a
parsed document is an array of objects each having Resource absent, a string or
an array of strings, `IsAsteriskFree` returns a boolean, and it returns the same
boolean on a document whose Statement array is that array after a permutation
of the statements and a permutation of the elements of any Resource array. -/
theorem order_independent (ParseJSON : String → Except String JSON)
    (text₁ text₂ : String) (doc₁ doc₂ : JSON) (e₁ e₂ : List JSON)
    (hp₁ : ParseJSON text₁ = Except.ok doc₁) (hp₂ : ParseJSON text₂ = Except.ok doc₂)
    (h₁ : statementValue doc₁ = some (JSON.arr e₁))
    (h₂ : statementValue doc₂ = some (JSON.arr e₂))
    (hw : ∀ x ∈ e₁, x.isObj = true ∧ resourceWellShaped x = true)
    (hperm : StatementsPermuted e₁ e₂) :
    ∃ b, IsAsteriskFree ParseJSON text₁ = Except.ok b ∧
      IsAsteriskFree ParseJSON text₂ = Except.ok b := by
  obtain ⟨e, hfor, hp⟩ := hperm
  obtain ⟨hall, hex⟩ := forall₂_resourcePermuted e₁ e hfor (fun x hx => (hw x hx).2)
  obtain ⟨b₁, hb₁, hiff₁⟩ := statementLoop_ok e₁
    (fun st => ∃ a ∈ resourceStrings st, HasStar a)
    (fun x hx => statementHasAsterisk_wellShaped x (hw x hx).2)
  obtain ⟨b₂, hb₂, hiff₂⟩ := statementLoop_ok e₂
    (fun st => ∃ a ∈ resourceStrings st, HasStar a)
    (fun x hx => statementHasAsterisk_wellShaped x (hall x (hp.mem_iff.2 hx)))
  have hb : b₁ = b₂ := by
    have hiff : (b₁ = false ↔ b₂ = false) := by
      rw [hiff₁, hiff₂, hex]
      constructor
      · rintro ⟨y, hy, hs⟩
        exact ⟨y, hp.mem_iff.1 hy, hs⟩
      · rintro ⟨y, hy, hs⟩
        exact ⟨y, hp.mem_iff.2 hy, hs⟩
    cases b₁ <;> cases b₂ <;> simp_all
  refine ⟨b₁, ?_, ?_⟩
  · rw [IsAsteriskFree_parsed ParseJSON text₁ doc₁ hp₁, isAsteriskFreeParsed_arr doc₁ e₁ h₁,
      hb₁]
  · rw [IsAsteriskFree_parsed ParseJSON text₂ doc₂ hp₂, isAsteriskFreeParsed_arr doc₂ e₂ h₂,
      hb₂, hb]

/-- Witness of C18: the statements with Resource ["a", "b*"] and "c", against
the statements with Resource "c" and ["b*", "a"]. -/
theorem order_independent_witness :
    ∃ b,
      IsAsteriskFree
        (fun t => if t = "first" then
            Except.ok (policyWith (JSON.arr
              [statementWith (JSON.arr [JSON.str "a", JSON.str "b*"]),
                statementWith (JSON.str "c")]))
          else Except.ok (policyWith (JSON.arr
              [statementWith (JSON.str "c"),
                statementWith (JSON.arr [JSON.str "b*", JSON.str "a"])])))
        "first" = Except.ok b ∧
      IsAsteriskFree
        (fun t => if t = "first" then
            Except.ok (policyWith (JSON.arr
              [statementWith (JSON.arr [JSON.str "a", JSON.str "b*"]),
                statementWith (JSON.str "c")]))
          else Except.ok (policyWith (JSON.arr
              [statementWith (JSON.str "c"),
                statementWith (JSON.arr [JSON.str "b*", JSON.str "a"])])))
        "second" = Except.ok b :=
  order_independent _ "first" "second" _ _
    [statementWith (JSON.arr [JSON.str "a", JSON.str "b*"]), statementWith (JSON.str "c")]
    [statementWith (JSON.str "c"), statementWith (JSON.arr [JSON.str "b*", JSON.str "a"])]
    rfl rfl rfl rfl
    (by
      intro x hx
      simp only [List.mem_cons, List.mem_singleton, List.not_mem_nil, or_false] at hx
      rcases hx with rfl | rfl <;> exact ⟨rfl, rfl⟩)
    ⟨[statementWith (JSON.arr [JSON.str "b*", JSON.str "a"]), statementWith (JSON.str "c")],
      List.Forall₂.cons
        (Or.inr ⟨[JSON.str "a", JSON.str "b*"], [JSON.str "b*", JSON.str "a"], rfl, rfl,
          List.Perm.swap _ _ _⟩)
        (List.Forall₂.cons (Or.inl rfl) List.Forall₂.nil),
      List.Perm.swap _ _ _⟩

theorem validJSON_empty : validJSON "" = false := by decide

theorem validJSON_missingValueText : validJSON missingValueText = false := by decide

theorem validJSON_emptyValuesText : validJSON emptyValuesText = true := by decide

theorem parseJSON_error (ParseJSON : String → Except String JSON) (text err : String)
    (h : ParseJSON text = Except.error err) :
    parseJSON ParseJSON text = Except.error err := by
  simp [parseJSON, h]

theorem IsAsteriskFree_error (ParseJSON : String → Except String JSON) (text err : String)
    (h : ParseJSON text = Except.error err) :
    IsAsteriskFree ParseJSON text = Except.error err := by
  simp [IsAsteriskFree, parseJSON, h]

theorem rejectsMalformed_parsesValidTo (doc : JSON) : RejectsMalformed (parsesValidTo doc) := by
  intro text h
  have hv : validJSON text = false := by
    rcases h with rfl | h
    · exact validJSON_empty
    · exact h
  exact ⟨"invalid JSON text", by simp [parsesValidTo, hv]⟩

/-- C14: a parse failure is propagated.  For every text that the JSON parser
rejects, `parseJSON` panics with the parser's error and so does `IsAsteriskFree`,
which returns no boolean.  With a parser that keeps the contract of failing on
the empty text and on every text that is not syntactically valid JSON, this
holds in particular for the empty text and for the text of the tests in which
the value of Resource is missing. -/
theorem parse_failure_propagates :
    (∀ (ParseJSON : String → Except String JSON) (text err : String),
      ParseJSON text = Except.error err →
      parseJSON ParseJSON text = Except.error err ∧
      IsAsteriskFree ParseJSON text = Except.error err ∧
      ∀ b, IsAsteriskFree ParseJSON text ≠ Except.ok b) ∧
    (∀ (ParseJSON : String → Except String JSON), RejectsMalformed ParseJSON →
      ∀ text, text = "" ∨ text = missingValueText →
      (∃ err, parseJSON ParseJSON text = Except.error err) ∧
      Fails (IsAsteriskFree ParseJSON text)) := by
  constructor
  · intro ParseJSON text err h
    refine ⟨parseJSON_error ParseJSON text err h, IsAsteriskFree_error ParseJSON text err h,
      fun b hb => ?_⟩
    rw [IsAsteriskFree_error ParseJSON text err h] at hb
    cases hb
  · intro ParseJSON hrej text ht
    have hbad : text = "" ∨ validJSON text = false := by
      rcases ht with rfl | rfl
      · exact Or.inl rfl
      · exact Or.inr validJSON_missingValueText
    obtain ⟨err, he⟩ := hrej text hbad
    exact ⟨⟨err, parseJSON_error ParseJSON text err he⟩,
      ⟨err, IsAsteriskFree_error ParseJSON text err he⟩⟩

/-- Witness of C14: a parser that rejects exactly the texts that are not valid
JSON, on the empty text and on the text with the missing value. -/
theorem parse_failure_propagates_witness :
    (parseJSON (parsesValidTo (policyWith statementWithout)) ""
        = Except.error "invalid JSON text" ∧
      IsAsteriskFree (parsesValidTo (policyWith statementWithout)) ""
        = Except.error "invalid JSON text" ∧
      ∀ b, IsAsteriskFree (parsesValidTo (policyWith statementWithout)) ""
        ≠ Except.ok b) ∧
    ((∃ err, parseJSON (parsesValidTo (policyWith statementWithout)) missingValueText
        = Except.error err) ∧
      Fails (IsAsteriskFree (parsesValidTo (policyWith statementWithout))
        missingValueText)) :=
  ⟨parse_failure_propagates.1 (parsesValidTo (policyWith statementWithout)) ""
      "invalid JSON text" (by simp [parsesValidTo, validJSON_empty]),
    parse_failure_propagates.2 (parsesValidTo (policyWith statementWithout))
      (rejectsMalformed_parsesValidTo _) missingValueText (Or.inr rfl)⟩

end FindStar
